import Mathlib

/-!
# kongfig `adminApi.js`: pagination and caching engine

A shallow embedding of `src/adminApi.js`.  JavaScript values that travel
through the module are decoded JSON documents, so the branching on
`json.data`, `json.next` and `json.data.length < pageSize` is modelled with
JavaScript truthiness, property reads and relational comparison over a JSON
value type.  A promise is modelled by the way it settles; a walk that has not
settled within the given number of transport round trips is `pending`.
Numbers are modelled as integers.
-/

namespace Kongfig

/-! ## JavaScript values -/

/-- A decoded JSON document.  An object lists its own properties in
enumeration order, one entry per key. -/
inductive Json where
  | null
  | bool (b : Bool)
  | num (n : Int)
  | str (s : String)
  | arr (xs : List Json)
  | obj (kv : List (String × Json))

namespace Json

/-- JavaScript `ToBoolean`: `null`, `false`, `0` and `""` are falsy, every
array and every object is truthy. -/
def truthy : Json → Bool
  | null => false
  | bool b => b
  | num n => n != 0
  | str s => s != ""
  | arr _ => true
  | obj _ => true

/-- Number of UTF-16 code units of a string, the `length` of a JavaScript
string. -/
def utf16Length (s : String) : Nat :=
  (s.toList.map fun c => if c.toNat < 65536 then 1 else 2).sum

mutual
/-- JavaScript `ToString` on a decoded JSON value. -/
def toStr : Json → String
  | null => "null"
  | bool b => if b then "true" else "false"
  | num n => toString n
  | str s => s
  | arr xs => joinStr xs
  | obj _ => "[object Object]"
/-- `Array.prototype.join(",")`, which is what `ToString` does on an array. -/
def joinStr : List Json → String
  | [] => ""
  | [x] => elemStr x
  | x :: y :: rest => elemStr x ++ "," ++ joinStr (y :: rest)
/-- An array element inside `join`: `null` prints as the empty string. -/
def elemStr : Json → String
  | null => ""
  | x => toStr x
end

/-- JavaScript `ToNumber` restricted to the integer number model: the text of
a string, array or object is read as a decimal integer literal; `none` is
`NaN`. -/
def toNumber : Json → Option Int
  | null => some 0
  | bool b => some (if b then 1 else 0)
  | num n => some n
  | j => if (toStr j).trim.isEmpty then some 0 else (toStr j).trim.toInt?

end Json

/-- What the module reads of a transport response: `ok`, `status`,
`statusText` and the result of `json()` (`none` when the body does not
decode). -/
structure Response where
  ok : Bool
  status : Int
  statusText : String
  json : Option Json

/-- An exception raised inside the module or reported by the transport. -/
inductive Err where
  /-- The `Error` built at `adminApi.js:86-87`, with its `message` and its
  `response` property. -/
  | http (message : String) (response : Response)
  /-- The transport promise rejected (no response was received). -/
  | transport (reason : String)
  /-- The promise of `response.json()` rejected: the body is not JSON. -/
  | decode
  /-- A `TypeError` thrown by a property read on `null` or `undefined`, or by
  calling something that is not a function. -/
  | typeError

/-- The message of the error thrown at `adminApi.js:86`: the target, a colon,
the numeric status and the status text. -/
def httpMessage (uri : Json) (response : Response) : String :=
  uri.toStr ++ ": " ++ toString response.status ++ " " ++ response.statusText

/-- How the promise returned by the transport settles. -/
inductive Reply where
  | rejects (reason : String)
  | responds (r : Response)

/-- The external collaborator `requester.get(uri, pageSize)`: the target is
the JavaScript value the module hands over (a router string, or whatever
`json.next` holds), the page size is `null` or a number. -/
abbrev Transport := Json → Option Int → Reply

/-- One call of `requester.get`. -/
abbrev Call := Json × Option Int

/-- How a promise settles; `pending` is a promise that has not settled. -/
inductive Settled (α : Type) where
  | resolved (v : α)
  | rejected (e : Err)
  | pending

/-! ## Property reads and operators used by the page walker -/

/-- The property read `json[key]` for the keys the module reads (`data`,
`next`, `length`, `enabled_plugins`, `fields`, `version`): a `TypeError` on
`null`, `none` for `undefined`. -/
def Json.get (j : Json) (key : String) : Except Err (Option Json) :=
  match j with
  | .null => .error .typeError
  | .obj kv => .ok (kv.lookup key)
  | .arr xs => .ok (if key = "length" then some (.num xs.length) else none)
  | .str s => .ok (if key = "length" then some (.num (Json.utf16Length s)) else none)
  | _ => .ok none

/-- JavaScript `ToBoolean` of a property read: `undefined` is falsy. -/
def truthy? : Option Json → Bool
  | none => false
  | some v => v.truthy

/-- The comparison `json.data.length < pageSize` of `adminApi.js:99`, with the
left operand already read (`none` is `undefined`, which compares as `NaN`) and
`pageSize` being `null` (which compares as `0`) or a number. -/
def lengthBelow (length : Option Json) (pageSize : Option Int) : Bool :=
  match length with
  | none => false
  | some l =>
    match l.toNumber with
    | none => false
    | some n => decide (n < pageSize.getD 0)

/-- The call `data.concat(rest)` of `adminApi.js:104`: `Array.prototype.concat`
spreads an array argument and appends any other value as one element,
`String.prototype.concat` appends the argument's string form, and every other
receiver has no `concat` method. -/
def concat (data rest : Json) : Except Err Json :=
  match data with
  | .arr xs =>
    match rest with
    | .arr ys => .ok (.arr (xs ++ ys))
    | r => .ok (.arr (xs ++ [r]))
  | .str s => .ok (.str (s ++ rest.toStr))
  | _ => .error .typeError

/-! ## The page walker -/

/-- The continuation `.then(data => json.data.concat(data))` of
`adminApi.js:104`, applied to the walk of the `next` target: the calls of that
walk follow the call that fetched the current page. -/
def thenConcat (data : Json) (call : Call) (rest : Settled Json × List Call) :
    Settled Json × List Call :=
  match rest with
  | (.resolved more, calls) =>
    match concat data more with
    | .ok all => (.resolved all, call :: calls)
    | .error e => (.rejected e, call :: calls)
  | (.rejected e, calls) => (.rejected e, call :: calls)
  | (.pending, calls) => (.pending, call :: calls)

/-- The function `getPaginatedJson(uri, pageSize)` of `adminApi.js:82-106`.
The first argument bounds the number of transport round trips that are
awaited; the result is the way the returned promise has settled by then,
together with the `requester.get` calls issued, in order. -/
def getPaginatedJson (get : Transport) : Nat → Json → Option Int → Settled Json × List Call
  | 0, _, _ => (.pending, [])
  | fuel + 1, uri, pageSize =>
    match get uri pageSize with
    | .rejects reason => (.rejected (.transport reason), [(uri, pageSize)])
    | .responds response =>
      if !response.ok then (.rejected (.http (httpMessage uri response) response), [(uri, pageSize)])
      else
        match response.json with
        | none => (.rejected .decode, [(uri, pageSize)])
        | some json =>
          match json.get "data" with
          | .error e => (.rejected e, [(uri, pageSize)])
          | .ok data? =>
            match data? with
            | none => (.resolved json, [(uri, pageSize)])
            | some data =>
              if !data.truthy then (.resolved json, [(uri, pageSize)])
              else
                match json.get "next" with
                | .error e => (.rejected e, [(uri, pageSize)])
                | .ok next? =>
                  match next? with
                  | none => (.resolved data, [(uri, pageSize)])
                  | some next =>
                    if !next.truthy then (.resolved data, [(uri, pageSize)])
                    else
                      match data.get "length" with
                      | .error e => (.rejected e, [(uri, pageSize)])
                      | .ok length =>
                        if lengthBelow length pageSize then (.resolved data, [(uri, pageSize)])
                        else
                          thenConcat data (uri, pageSize) (getPaginatedJson get fuel next none)

/-! ## Module state -/

/-- A promise object: its identity and the way it settles. -/
structure Promise (α : Type) where
  id : Nat
  settled : Settled α

/-- A `Map` instance built by `new Map(all)`: its identity and its entries in
insertion order.  A value is `none` when it is `undefined`. -/
structure SchemaMap where
  id : Nat
  entries : List (Json × Option Json)

/-- A route descriptor handed to the router, `{name, params}`. -/
structure Endpoint where
  name : String
  params : List (String × Json)

/-- The options object built by `prepareOptions`; a field that the object
literal does not mention is `none`. -/
structure Options where
  method : Option Json
  headers : List (String × String)
  body : Option String

/-- The parameters of a mutation, `{method, body}`; a property that is missing
reads as `undefined` (`none`). -/
structure Params where
  method : Option Json
  body : Option Json

/-- The external collaborator `requester.request(uri, options)`. -/
abbrev RequestTransport := String → Options → Reply

/-- The module-level variables of `adminApi.js:5-7`, together with the record
of what the module has asked of the transport and the counter from which new
objects take their identity.  `resultsCache` is used as a dictionary keyed by
router targets (URLs). -/
structure World where
  pluginSchemasCache : Option SchemaMap
  kongVersionCache : Option Json
  resultsCache : List (String × Promise Json)
  calls : List Call
  requests : List (String × Options)
  nextId : Nat

/-- The state of the module when it is loaded. -/
def World.initial : World :=
  { pluginSchemasCache := none, kongVersionCache := none, resultsCache := [],
    calls := [], requests := [], nextId := 0 }

/-- The arguments of the API factory, `adminApi.js:9`, with the router already
created from `host` and `https`. -/
structure Config where
  router : Endpoint → String
  ignoreConsumers : Bool
  cache : Bool
  pageSize : Option Int

/-! ## Cache layer -/

/-- A call `getPaginatedJson(uri, pageSize)` made on a router target: the walk
runs against the transport, its calls are recorded and a new promise is
returned. -/
def callGetPaginatedJson (get : Transport) (fuel : Nat) (uri : String)
    (pageSize : Option Int) (w : World) : Promise Json × World :=
  let walk := getPaginatedJson get fuel (.str uri) pageSize
  ({ id := w.nextId, settled := walk.1 },
    { w with calls := w.calls ++ walk.2, nextId := w.nextId + 1 })

/-- The function `getPaginatedJsonCache(uri, pageSize)` of
`adminApi.js:66-75`. -/
def getPaginatedJsonCache (get : Transport) (fuel : Nat) (uri : String)
    (pageSize : Option Int) (w : World) : Promise Json × World :=
  match w.resultsCache.lookup uri with
  | some cached => (cached, w)
  | none =>
    let started := callGetPaginatedJson get fuel uri pageSize w
    (started.1, { started.2 with resultsCache := (uri, started.1) :: started.2.resultsCache })

/-- The walker that the factory injects into the API, `adminApi.js:15`:
`cache ? getPaginatedJsonCache : getPaginatedJson`. -/
def Config.getPaginatedJson (cfg : Config) (get : Transport) (fuel : Nat) (uri : String)
    (pageSize : Option Int) (w : World) : Promise Json × World :=
  if cfg.cache then getPaginatedJsonCache get fuel uri pageSize w
  else callGetPaginatedJson get fuel uri pageSize w

/-! ## Mutation gateway -/

/-- Hexadecimal digit of a number below sixteen. -/
def hexDigit (n : Nat) : Char :=
  if n < 10 then Char.ofNat (48 + n) else Char.ofNat (87 + n)

/-- The escape of one character inside a JSON string literal. -/
def escapeChar (c : Char) : String :=
  if c = '"' then "\\\"" else if c = '\\' then "\\\\"
  else if c = '\n' then "\\n" else if c = '\r' then "\\r" else if c = '\t' then "\\t"
  else if c.toNat = 8 then "\\b" else if c.toNat = 12 then "\\f"
  else if c.toNat < 32 then
    "\\u00" ++ String.mk [hexDigit (c.toNat / 16), hexDigit (c.toNat % 16)]
  else String.singleton c

/-- A JSON string literal. -/
def quote (s : String) : String :=
  "\"" ++ String.join (s.toList.map escapeChar) ++ "\""

mutual
/-- The text `JSON.stringify(value)` of a decoded JSON value. -/
def jsonStringify : Json → String
  | .null => "null"
  | .bool b => if b then "true" else "false"
  | .num n => toString n
  | .str s => quote s
  | .arr xs => "[" ++ stringifyItems xs ++ "]"
  | .obj kv => "\x7b" ++ stringifyFields kv ++ "\x7d"
/-- The elements of an array, separated by commas. -/
def stringifyItems : List Json → String
  | [] => ""
  | [x] => jsonStringify x
  | x :: y :: rest => jsonStringify x ++ "," ++ stringifyItems (y :: rest)
/-- The properties of an object, separated by commas. -/
def stringifyFields : List (String × Json) → String
  | [] => ""
  | [(k, v)] => quote k ++ ":" ++ jsonStringify v
  | (k, v) :: f :: rest => quote k ++ ":" ++ jsonStringify v ++ "," ++ stringifyFields (f :: rest)
end

/-- The function `prepareOptions({method, body})` of `adminApi.js:108-126`. -/
def prepareOptions (params : Params) : Options :=
  if truthy? params.body then
    { method := params.method,
      headers := [("Accept", "application/json"), ("Content-Type", "application/json")],
      body := params.body.map jsonStringify }
  else
    { method := params.method,
      headers := [("Accept", "application/json")],
      body := none }

/-- The assignment `resultsCache = {}` of `adminApi.js:52`. -/
def clearResultsCache (w : World) : World :=
  { w with resultsCache := [] }

/-- The call `requester.request(router(endpoint), prepareOptions(params))` of
`adminApi.js:53`; the raw transport result is returned. -/
def sendRequest (cfg : Config) (request : RequestTransport) (endpoint : Endpoint)
    (params : Params) (w : World) : Reply × World :=
  (request (cfg.router endpoint) (prepareOptions params),
    { w with requests := w.requests ++ [(cfg.router endpoint, prepareOptions params)] })

/-- The operation `requestEndpoint(endpoint, params)` of `adminApi.js:51-54`:
the cache is cleared, then the request is issued. -/
def requestEndpoint (cfg : Config) (request : RequestTransport) (endpoint : Endpoint)
    (params : Params) (w : World) : Reply × World :=
  sendRequest cfg request endpoint params (clearResultsCache w)

/-! ## Plugin schemas -/

/-- The keys `Object.keys(value)` of a value that is not an array: a
`TypeError` on `undefined` and `null`, the own keys of an object, the indices
of a string, nothing for a number or a boolean. -/
def objectKeys : Option Json → Except Err (List Json)
  | none => .error .typeError
  | some .null => .error .typeError
  | some (.obj kv) => .ok (kv.map fun e => .str e.1)
  | some (.arr xs) => .ok ((List.range xs.length).map fun i => .str (toString i))
  | some (.str s) => .ok ((List.range (Json.utf16Length s)).map fun i => .str (toString i))
  | some _ => .ok []

/-- The function `getEnabledPluginNames(enabledPlugins)` of
`adminApi.js:58-64`. -/
def getEnabledPluginNames (enabledPlugins : Option Json) : Except Err (List Json) :=
  match enabledPlugins with
  | some (.arr names) => .ok names
  | other => objectKeys other

/-- The route handed to `getPluginScheme` at `adminApi.js:39`: the router
applied to the descriptor named `plugins-scheme` with the plugin as its only
parameter. -/
def schemaRoute (cfg : Config) (plugin : Json) : String :=
  cfg.router { name := "plugins-scheme", params := [("plugin", plugin)] }

/-- The function `getPluginScheme(plugin, schemaRoute)` of `adminApi.js:77-80`:
the walk of the failings schema target with no page size, then the pair
`[plugin, fields]`. -/
def getPluginScheme (get : Transport) (fuel : Nat) (plugin : Json) (route : Json → String) :
    Settled (Json × Option Json) × List Call :=
  match getPaginatedJson get fuel (.str (route plugin)) none with
  | (.resolved schema, calls) =>
    match schema.get "fields" with
    | .ok fields => (.resolved (plugin, fields), calls)
    | .error e => (.rejected e, calls)
  | (.rejected e, calls) => (.rejected e, calls)
  | (.pending, calls) => (.pending, calls)

/-- The first rejection among a list of settled promises, in list order. -/
def firstRejection {α : Type} : List (Settled α) → Option Err
  | [] => none
  | .rejected e :: _ => some e
  | _ :: rest => firstRejection rest

/-- The values of a list of promises that have all resolved. -/
def allResolved {α : Type} : List (Settled α) → Option (List α)
  | [] => some []
  | .resolved v :: rest => (allResolved rest).map (v :: ·)
  | _ :: _ => none

/-- The promise `Promise.all(promises)`: rejected as soon as one of the
promises is rejected, resolved with all the values once every promise has
resolved, pending otherwise.  When several promises are rejected the model
reports the one that comes first in the list. -/
def promiseAll {α : Type} (promises : List (Settled α)) : Settled (List α) :=
  match firstRejection promises with
  | some e => .rejected e
  | none =>
    match allResolved promises with
    | some values => .resolved values
    | none => .pending

/-- The comparison `SameValueZero` on the keys of a `Map`: primitive values
are compared by value, two arrays or objects decoded at different places are
different keys. -/
def sameValueZero : Json → Json → Bool
  | .null, .null => true
  | .bool a, .bool b => a == b
  | .num a, .num b => a == b
  | .str a, .str b => a == b
  | _, _ => false

/-- The method `Map.prototype.set`: the value of a key that is present is
replaced in place, a new key is appended. -/
def mapSet : List (Json × Option Json) → Json → Option Json → List (Json × Option Json)
  | [], k, v => [(k, v)]
  | (k', v') :: rest, k, v =>
    if sameValueZero k' k then (k', v) :: rest else (k', v') :: mapSet rest k v

/-- The entries of `new Map(all)`. -/
def mapEntries (all : List (Json × Option Json)) : List (Json × Option Json) :=
  all.foldl (fun m e => mapSet m e.1 e.2) []

/-- The promise chain of `adminApi.js:38-39`: the enabled plugins are fetched
through the injected walker, the schema of every enabled plugin is requested,
and `Promise.all` gathers the pairs. -/
def fetchSchemaPairs (cfg : Config) (get : Transport) (fuel : Nat) (w : World) :
    Settled (List (Json × Option Json)) × World :=
  let enabled := cfg.getPaginatedJson get fuel (cfg.router { name := "plugins-enabled", params := [] })
    cfg.pageSize w
  match enabled.1.settled with
  | .rejected e => (.rejected e, enabled.2)
  | .pending => (.pending, enabled.2)
  | .resolved json =>
    match json.get "enabled_plugins" with
    | .error e => (.rejected e, enabled.2)
    | .ok enabledPlugins =>
      match getEnabledPluginNames enabledPlugins with
      | .error e => (.rejected e, enabled.2)
      | .ok names =>
        let schemes := names.map fun plugin => getPluginScheme get fuel plugin (schemaRoute cfg)
        (promiseAll (schemes.map Prod.fst),
          { enabled.2 with calls := enabled.2.calls ++ (schemes.map Prod.snd).flatten })

/-- The callback `all => pluginSchemasCache = new Map(all)` of
`adminApi.js:40`, run when the promise of `Promise.all` has resolved; a
rejection passes through and leaves the module untouched. -/
def storeSchemas (all : Settled (List (Json × Option Json))) (w : World) :
    Settled SchemaMap × World :=
  match all with
  | .resolved pairs =>
    (.resolved { id := w.nextId, entries := mapEntries pairs },
      { w with pluginSchemasCache := some { id := w.nextId, entries := mapEntries pairs },
               nextId := w.nextId + 1 })
  | .rejected e => (.rejected e, w)
  | .pending => (.pending, w)

/-- The operation `fetchPluginSchemas()` of `adminApi.js:33-41`, for a call
whose promise chain runs to its end before anything else happens: the guard
of lines 34-36, then the chain of lines 38-39, then the callback of line 40. -/
def fetchPluginSchemas (cfg : Config) (get : Transport) (fuel : Nat) (w : World) :
    Settled SchemaMap × World :=
  match w.pluginSchemasCache with
  | some cached => (.resolved cached, w)
  | none =>
    let gathered := fetchSchemaPairs cfg get fuel w
    storeSchemas gathered.1 gathered.2

/-! ## Resource API -/

/-- The operation `fetchApis()` of `adminApi.js:23`. -/
def fetchApis (cfg : Config) (get : Transport) (fuel : Nat) (w : World) :
    Promise Json × World :=
  cfg.getPaginatedJson get fuel (cfg.router { name := "apis", params := [] }) cfg.pageSize w

/-- The operation `fetchGlobalPlugins()` of `adminApi.js:24`. -/
def fetchGlobalPlugins (cfg : Config) (get : Transport) (fuel : Nat) (w : World) :
    Promise Json × World :=
  cfg.getPaginatedJson get fuel (cfg.router { name := "plugins", params := [] }) cfg.pageSize w

/-- The operation `fetchPlugins(apiId)` of `adminApi.js:25`. -/
def fetchPlugins (cfg : Config) (get : Transport) (fuel : Nat) (apiId : Json) (w : World) :
    Promise Json × World :=
  cfg.getPaginatedJson get fuel
    (cfg.router { name := "api-plugins", params := [("apiId", apiId)] }) cfg.pageSize w

/-- The operation `fetchConsumers()` of `adminApi.js:26`: with
`ignoreConsumers` set it is `Promise.resolve([])`, a new promise resolved with
a new empty array; otherwise the consumers are read through the injected
walker. -/
def fetchConsumers (cfg : Config) (get : Transport) (fuel : Nat) (w : World) :
    Promise Json × World :=
  if cfg.ignoreConsumers then
    ({ id := w.nextId, settled := .resolved (.arr []) }, { w with nextId := w.nextId + 1 })
  else
    cfg.getPaginatedJson get fuel (cfg.router { name := "consumers", params := [] })
      cfg.pageSize w

/-- The operation `fetchConsumerCredentials(consumerId, plugin)` of
`adminApi.js:27`. -/
def fetchConsumerCredentials (cfg : Config) (get : Transport) (fuel : Nat)
    (consumerId plugin : Json) (w : World) : Promise Json × World :=
  cfg.getPaginatedJson get fuel
    (cfg.router { name := "consumer-credentials",
                  params := [("consumerId", consumerId), ("plugin", plugin)] })
    cfg.pageSize w

/-- The operation `fetchConsumerAcls(consumerId)` of `adminApi.js:28`. -/
def fetchConsumerAcls (cfg : Config) (get : Transport) (fuel : Nat) (consumerId : Json)
    (w : World) : Promise Json × World :=
  cfg.getPaginatedJson get fuel
    (cfg.router { name := "consumer-acls", params := [("consumerId", consumerId)] })
    cfg.pageSize w

/-- The operation `fetchUpstreams()` of `adminApi.js:29`. -/
def fetchUpstreams (cfg : Config) (get : Transport) (fuel : Nat) (w : World) :
    Promise Json × World :=
  cfg.getPaginatedJson get fuel (cfg.router { name := "upstreams", params := [] }) cfg.pageSize w

/-- The operation `fetchTargets(upstreamId)` of `adminApi.js:30`. -/
def fetchTargets (cfg : Config) (get : Transport) (fuel : Nat) (upstreamId : Json)
    (w : World) : Promise Json × World :=
  cfg.getPaginatedJson get fuel
    (cfg.router { name := "upstream-targets-active", params := [("upstreamId", upstreamId)] })
    cfg.pageSize w

/-- The helper `parseVersion` of `utils.js`, which is not part of the sources
at hand: it receives `json.version` (`none` when `undefined`) and returns a
value (`none` when `undefined`) or throws. -/
abbrev VersionReader := Option Json → Except Err (Option Json)

/-- The callbacks of `adminApi.js:48-49`, run when the root document has been
read: `json.version` is handed to `parseVersion` and the result is assigned to
`kongVersionCache`; a rejection or an exception leaves the module untouched. -/
def storeVersion (parseVersion : VersionReader) (root : Settled Json) (w : World) :
    Settled (Option Json) × World :=
  match root with
  | .resolved json =>
    match json.get "version" with
    | .error e => (.rejected e, w)
    | .ok version =>
      match parseVersion version with
      | .error e => (.rejected e, w)
      | .ok parsed => (.resolved parsed, { w with kongVersionCache := parsed })
  | .rejected e => (.rejected e, w)
  | .pending => (.pending, w)

/-- The operation `fetchKongVersion()` of `adminApi.js:42-50`, for a call
whose promise chain runs to its end before anything else happens.  The guard
`if (kongVersionCache)` tests truthiness. -/
def fetchKongVersion (parseVersion : VersionReader) (cfg : Config) (get : Transport)
    (fuel : Nat) (w : World) : Settled (Option Json) × World :=
  if truthy? w.kongVersionCache then (.resolved w.kongVersionCache, w)
  else
    storeVersion parseVersion
      (cfg.getPaginatedJson get fuel (cfg.router { name := "root", params := [] })
        cfg.pageSize w).1.settled
      (cfg.getPaginatedJson get fuel (cfg.router { name := "root", params := [] })
        cfg.pageSize w).2

/-! ## Runs of operations -/

/-- A cached read: the transport of the moment, the number of round trips
awaited, the target and the page size. -/
structure CachedRead where
  get : Transport
  fuel : Nat
  uri : String
  pageSize : Option Int

/-- The module after a sequence of cached reads, each made after the previous
one. -/
def runCachedReads : List CachedRead → World → World
  | [], w => w
  | r :: rest, w => runCachedReads rest (getPaginatedJsonCache r.get r.fuel r.uri r.pageSize w).2

/-- The module after a sequence of cached reads of the given targets and page
sizes against one unchanging server. -/
def runReadsOn (get : Transport) (fuel : Nat) : List (String × Option Int) → World → World
  | [], w => w
  | r :: rest, w => runReadsOn get fuel rest (getPaginatedJsonCache get fuel r.1 r.2 w).2

/-- A call of `fetchPluginSchemas()`: the API it is made on, the transport of
the moment and the number of round trips awaited. -/
structure SchemaCall where
  cfg : Config
  get : Transport
  fuel : Nat

/-- The results of a sequence of `fetchPluginSchemas` calls, each made after
the previous one has settled, and the module after them. -/
def runFetchPluginSchemas : List SchemaCall → World → List (Settled SchemaMap) × World
  | [], w => ([], w)
  | c :: rest, w =>
    ((fetchPluginSchemas c.cfg c.get c.fuel w).1
        :: (runFetchPluginSchemas rest (fetchPluginSchemas c.cfg c.get c.fuel w).2).1,
      (runFetchPluginSchemas rest (fetchPluginSchemas c.cfg c.get c.fuel w).2).2)

/-- The operations of the object returned by `createApi`, `adminApi.js:21-55`,
with their arguments. -/
inductive Operation where
  | fetchApis
  | fetchGlobalPlugins
  | fetchPlugins (apiId : Json)
  | fetchConsumers
  | fetchConsumerCredentials (consumerId plugin : Json)
  | fetchConsumerAcls (consumerId : Json)
  | fetchUpstreams
  | fetchTargets (upstreamId : Json)
  | fetchPluginSchemas
  | fetchKongVersion
  | requestEndpoint (endpoint : Endpoint) (params : Params)

/-- One call of an operation: the API it is made on, the transports of the
moment and the number of round trips awaited. -/
structure Step where
  cfg : Config
  get : Transport
  request : RequestTransport
  fuel : Nat
  operation : Operation

/-- The module after one call of an operation that has run to its end. -/
def Step.run (parseVersion : VersionReader) (s : Step) (w : World) : World :=
  match s.operation with
  | .fetchApis => (fetchApis s.cfg s.get s.fuel w).2
  | .fetchGlobalPlugins => (fetchGlobalPlugins s.cfg s.get s.fuel w).2
  | .fetchPlugins apiId => (fetchPlugins s.cfg s.get s.fuel apiId w).2
  | .fetchConsumers => (fetchConsumers s.cfg s.get s.fuel w).2
  | .fetchConsumerCredentials consumerId plugin =>
    (fetchConsumerCredentials s.cfg s.get s.fuel consumerId plugin w).2
  | .fetchConsumerAcls consumerId => (fetchConsumerAcls s.cfg s.get s.fuel consumerId w).2
  | .fetchUpstreams => (fetchUpstreams s.cfg s.get s.fuel w).2
  | .fetchTargets upstreamId => (fetchTargets s.cfg s.get s.fuel upstreamId w).2
  | .fetchPluginSchemas => (fetchPluginSchemas s.cfg s.get s.fuel w).2
  | .fetchKongVersion => (fetchKongVersion parseVersion s.cfg s.get s.fuel w).2
  | .requestEndpoint endpoint params =>
    (requestEndpoint s.cfg s.request endpoint params w).2

/-- The module after a sequence of calls, each made after the previous one has
run to its end. -/
def runSteps (parseVersion : VersionReader) : List Step → World → World
  | [], w => w
  | s :: rest, w => runSteps parseVersion rest (s.run parseVersion w)

/-! ## Vocabulary of the page-walker properties -/

/-- Whether a decoded body has a field `key`: only a JSON object has fields. -/
def Json.hasField (j : Json) (key : String) : Bool :=
  match j with
  | .obj kv => (kv.lookup key).isSome
  | _ => false

/-- A successful response (`response.ok`) whose body decodes to `json`. -/
def Serves (get : Transport) (uri : Json) (pageSize : Option Int) (json : Json) : Prop :=
  ∃ r : Response, get uri pageSize = .responds r ∧ r.ok = true ∧ r.json = some json

/-- The transport answers this call with a response of non-success status. -/
def NonSuccess (get : Transport) (c : Call) : Prop :=
  ∃ r : Response, get c.1 c.2 = .responds r ∧ r.ok = false

/-- A chain of successful pages starting at `uri`, fetched with `pageSize`:
every page carries a `data` array; every page before the last carries a
`next` link (a truthy `next` value) that is the target of the following page,
fetched with no page size, and is full for the page size it was fetched with;
the last page has no `next`.  The list holds the `data` of the pages. -/
def IsChain (get : Transport) : Json → Option Int → List (List Json) → Prop
  | _, _, [] => False
  | uri, pageSize, [items] =>
    ∃ json, Serves get uri pageSize json ∧
      json.get "data" = .ok (some (.arr items)) ∧ json.get "next" = .ok none
  | uri, pageSize, items :: more :: rest =>
    ∃ json next, Serves get uri pageSize json ∧
      json.get "data" = .ok (some (.arr items)) ∧
      json.get "next" = .ok (some next) ∧ next.truthy = true ∧
      pageSize.getD 0 ≤ (items.length : Int) ∧
      IsChain get next none (more :: rest)

/-- What a walk guarantees about responses of non-success status: it is
rejected with the HTTP error exactly when such a response was fetched, and
then the failing request is the last call and carries the error's target and
response. -/
def HttpFailureSpec (get : Transport) (walk : Settled Json × List Call) : Prop :=
  ((∃ c ∈ walk.2, NonSuccess get c) ↔ ∃ m r, walk.1 = .rejected (.http m r)) ∧
  (∀ m r, walk.1 = .rejected (.http m r) →
    ∃ earlier u h, walk.2 = earlier ++ [(u, h)] ∧ m = httpMessage u r ∧
      get u h = .responds r ∧ r.ok = false ∧ ∀ c ∈ earlier, ¬ NonSuccess get c)

/-- The `next` link of the page that the transport serves for a call: the
truthy `next` value of a successful response's decoded body, if there is
one. -/
def nextLink (get : Transport) (uri : Json) (pageSize : Option Int) : Option Json :=
  match get uri pageSize with
  | .rejects _ => none
  | .responds r =>
    if r.ok then
      match r.json with
      | none => none
      | some json =>
        match json.get "next" with
        | .ok (some next) => if next.truthy then some next else none
        | _ => none
    else none

/-- Following `next` links from the target, fetched with the page size, and
from then on with no page size, a page without a `next` link is reached
within the given number of pages. -/
def chainEndsWithin (get : Transport) : Nat → Json → Option Int → Bool
  | 0, _, _ => false
  | n + 1, uri, pageSize =>
    match nextLink get uri pageSize with
    | none => true
    | some next => chainEndsWithin get n next none

/-- The value of `schema.fields` (`none` when `undefined`). -/
def fieldsOf (schema : Json) : Option Json :=
  match schema.get "fields" with
  | .ok fields => fields
  | .error _ => none

/-! ## Example servers -/

/-- A `200 OK` response with the given decoded body. -/
def okPage (j : Json) : Reply := .responds ⟨true, 200, "OK", some j⟩

/-- The two-page server of the specification's example: `/p1` holds
`[1,2,3]` and links to `/p2`, which holds `[4,5]`. -/
def twoPages : Transport := fun uri _ =>
  match uri with
  | .str "/p1" => okPage (.obj [("data", .arr [.num 1, .num 2, .num 3]), ("next", .str "/p2")])
  | .str "/p2" => okPage (.obj [("data", .arr [.num 4, .num 5])])
  | _ => .responds ⟨false, 404, "Not Found", none⟩

/-- A server whose first page `/p1` holds `[1,2]` and links to `/p2`. -/
def shortFirstPage : Transport := fun uri _ =>
  match uri with
  | .str "/p1" => okPage (.obj [("data", .arr [.num 1, .num 2]), ("next", .str "/p2")])
  | .str "/p2" => okPage (.obj [("data", .arr [.num 3])])
  | _ => .responds ⟨false, 404, "Not Found", none⟩

/-- A server that answers every request with `200 OK` and the body `null`. -/
def nullBody : Transport := fun _ _ => okPage .null

/-- A server whose root document has no `data` field but carries a `next`
field. -/
def serverInfo : Transport := fun _ _ =>
  okPage (.obj [("version", .str "0.14.1"), ("next", .str "/p2")])

/-- A server that answers every request with the body `{"data": null}`. -/
def falsyData : Transport := fun _ _ => okPage (.obj [("data", .null)])

/-- A server that cannot be reached: every transport promise rejects. -/
def unreachable : Transport := fun _ _ => .rejects "ECONNREFUSED"

/-- A server whose first page is full and links to `/p2`, which answers with
status 500. -/
def brokenSecondPage : Transport := fun uri _ =>
  match uri with
  | .str "/p1" => okPage (.obj [("data", .arr [.num 1, .num 2]), ("next", .str "/p2")])
  | _ => .responds ⟨false, 500, "Internal Server Error", none⟩

/-- The failure that C10 is about: the enabled-plugins fetch made by
`fetchPluginSchemas` rejects with `e`, or it resolves to a document that
names the enabled plugins and the schema fetch of one of them rejects with
`e`. -/
def SchemaFetchFails (cfg : Config) (get : Transport) (fuel : Nat) (w : World) (e : Err) :
    Prop :=
  (cfg.getPaginatedJson get fuel (cfg.router { name := "plugins-enabled", params := [] })
      cfg.pageSize w).1.settled = .rejected e ∨
  ∃ json enabledPlugins names,
    (cfg.getPaginatedJson get fuel (cfg.router { name := "plugins-enabled", params := [] })
      cfg.pageSize w).1.settled = .resolved json ∧
    json.get "enabled_plugins" = .ok enabledPlugins ∧
    getEnabledPluginNames enabledPlugins = .ok names ∧
    ∃ plugin ∈ names, (getPluginScheme get fuel plugin (schemaRoute cfg)).1 = .rejected e

/-- A router for the examples. -/
def demoRouter : Endpoint → String := fun endpoint =>
  match endpoint.name, endpoint.params with
  | "plugins-enabled", _ => "/plugins/enabled"
  | "plugins-scheme", [("plugin", .str "key-auth")] => "/plugins/schema/key-auth"
  | "plugins-scheme", [("plugin", .str "acl")] => "/plugins/schema/acl"
  | _, _ => "/"

/-- An API configuration for the examples: no caching, no page size. -/
def demoConfig : Config :=
  { router := demoRouter, ignoreConsumers := false, cache := false, pageSize := none }

/-- A server with one enabled plugin, `key-auth`, whose schema it serves. -/
def pluginServer : Transport := fun uri _ =>
  match uri with
  | .str "/plugins/enabled" => okPage (.obj [("enabled_plugins", .arr [.str "key-auth"])])
  | .str "/plugins/schema/key-auth" => okPage (.obj [("fields", .obj [("key_names", .obj [])])])
  | _ => .responds ⟨false, 404, "Not Found", none⟩

/-- A server with two enabled plugins; the schema of `acl` answers 500. -/
def brokenSchemaServer : Transport := fun uri _ =>
  match uri with
  | .str "/plugins/enabled" =>
    okPage (.obj [("enabled_plugins", .arr [.str "key-auth", .str "acl"])])
  | .str "/plugins/schema/key-auth" => okPage (.obj [("fields", .obj [("key_names", .obj [])])])
  | _ => .responds ⟨false, 500, "Internal Server Error", none⟩

/-- Two overlapping `fetchPluginSchemas` calls, step 1: the first call finds
the cache empty and starts its promise chain (`adminApi.js:38-39`). -/
def overlapFirstStarted : Settled (List (Json × Option Json)) × World :=
  fetchSchemaPairs demoConfig pluginServer 3 World.initial

/-- Step 2: before the first call's callback has run, a second call finds the
cache still empty and starts its own chain. -/
def overlapSecondStarted : Settled (List (Json × Option Json)) × World :=
  fetchSchemaPairs demoConfig pluginServer 3 overlapFirstStarted.2

/-- Step 3: the first call's callback (`adminApi.js:40`) runs; the first call
has resolved. -/
def overlapFirstResolved : Settled SchemaMap × World :=
  storeSchemas overlapFirstStarted.1 overlapSecondStarted.2

/-- Step 4: the second call's callback runs. -/
def overlapSecondResolved : Settled SchemaMap × World :=
  storeSchemas overlapSecondStarted.1 overlapFirstResolved.2

/-- Step 5: a later call of `fetchPluginSchemas`. -/
def overlapLaterCall : Settled SchemaMap × World :=
  fetchPluginSchemas demoConfig pluginServer 3 overlapSecondResolved.2

/-- A server whose first page `/p1` is full for page size 2 and links to
`/p2`, a page with `data` whose `next` link points to `/p2` itself. -/
def loopServer : Transport := fun uri _ =>
  match uri with
  | .str "/p1" => okPage (.obj [("data", .arr [.num 1, .num 2]), ("next", .str "/p2")])
  | .str "/p2" => okPage (.obj [("data", .arr [.num 3]), ("next", .str "/p2")])
  | _ => .responds ⟨false, 404, "Not Found", none⟩

/-- A server with three pages, the second of which is empty: `/p1` holds
`[1]`, `/p2` holds `[]` and `/p3` holds `[2]`. -/
def emptyMiddlePage : Transport := fun uri _ =>
  match uri with
  | .str "/p1" => okPage (.obj [("data", .arr [.num 1]), ("next", .str "/p2")])
  | .str "/p2" => okPage (.obj [("data", .arr []), ("next", .str "/p3")])
  | .str "/p3" => okPage (.obj [("data", .arr [.num 2])])
  | _ => .responds ⟨false, 404, "Not Found", none⟩

/-- A server whose enabled plugins are the keys of an object. -/
def pluginMapServer : Transport := fun uri _ =>
  match uri with
  | .str "/plugins/enabled" =>
    okPage (.obj [("enabled_plugins", .obj [("key-auth", .bool true), ("acl", .bool true)])])
  | .str "/plugins/schema/key-auth" => okPage (.obj [("fields", .obj [("key_names", .obj [])])])
  | .str "/plugins/schema/acl" => okPage (.obj [("fields", .obj [("whitelist", .obj [])])])
  | _ => .responds ⟨false, 404, "Not Found", none⟩

/-- A version reader for the examples: it returns the version it is given and
throws on `undefined`. -/
def demoParseVersion : VersionReader := fun version =>
  match version with
  | none => .error .typeError
  | some v => .ok (some v)

/-- An API configuration with `ignoreConsumers` and caching set. -/
def ignoringConfig : Config :=
  { router := demoRouter, ignoreConsumers := true, cache := true, pageSize := some 2 }

/-- A state of the module in which both permanent caches and the request
cache are populated. -/
def populatedWorld : World :=
  { pluginSchemasCache := some { id := 0, entries := [] },
    kongVersionCache := some (.str "0.14.1"),
    resultsCache := [("/stale", { id := 1, settled := .resolved (.arr []) })],
    calls := [], requests := [], nextId := 2 }

/-- A mutation followed by a read of the APIs, on a caching API. -/
def demoSteps : List Step :=
  [{ cfg := ignoringConfig, get := twoPages, request := fun _ _ => .rejects "ECONNRESET",
     fuel := 3,
     operation := .requestEndpoint { name := "api", params := [] }
       { method := some (.str "DELETE"), body := none } },
   { cfg := ignoringConfig, get := twoPages, request := fun _ _ => .rejects "ECONNRESET",
     fuel := 3, operation := .fetchApis }]

/-- Whether an operation is the mutation `requestEndpoint`. -/
def Operation.isMutation : Operation → Bool
  | .requestEndpoint _ _ => true
  | _ => false

/-- An API configuration for the examples with caching enabled. -/
def cachingConfig : Config :=
  { router := demoRouter, ignoreConsumers := false, cache := true, pageSize := none }

/-- Read operations on caching APIs: the APIs, the plugin schemas and the
consumers (ignored). -/
def demoReads : List Step :=
  [{ cfg := cachingConfig, get := twoPages, request := fun _ _ => .rejects "ECONNRESET",
     fuel := 3, operation := .fetchApis },
   { cfg := cachingConfig, get := brokenSchemaServer,
     request := fun _ _ => .rejects "ECONNRESET", fuel := 3, operation := .fetchPluginSchemas },
   { cfg := ignoringConfig, get := twoPages, request := fun _ _ => .rejects "ECONNRESET",
     fuel := 3, operation := .fetchConsumers }]

/-- A server with one enabled plugin, its schema and a root document. -/
def fullServer : Transport := fun uri _ =>
  match uri with
  | .str "/plugins/enabled" => okPage (.obj [("enabled_plugins", .arr [.str "key-auth"])])
  | .str "/plugins/schema/key-auth" => okPage (.obj [("fields", .obj [("key_names", .obj [])])])
  | .str "/" => okPage (.obj [("version", .str "0.14.1")])
  | _ => .responds ⟨false, 404, "Not Found", none⟩

/-- A population in flight, step 1: a `fetchPluginSchemas` call finds the cache
empty and starts its promise chain (`adminApi.js:38-39`). -/
def inFlightStarted : Settled (List (Json × Option Json)) × World :=
  fetchSchemaPairs demoConfig fullServer 3 World.initial

/-- Step 2: while that chain is in flight, another `fetchPluginSchemas` call
and a `fetchKongVersion` call run to their ends: both permanent caches are
populated. -/
def inFlightPopulated : World :=
  (fetchKongVersion demoParseVersion demoConfig fullServer 3
    (fetchPluginSchemas demoConfig fullServer 3 inFlightStarted.2).2).2

/-- Step 3: the callback of the first call (`adminApi.js:40`) runs in the
populated state. -/
def inFlightCompleted : Settled SchemaMap × World :=
  storeSchemas inFlightStarted.1 inFlightPopulated

/-- A state in which the plugin schema cache holds a mapping and the version
cache holds the empty string. -/
def blankVersionWorld : World :=
  { pluginSchemasCache := some { id := 0, entries := [] },
    kongVersionCache := some (.str ""),
    resultsCache := [], calls := [], requests := [], nextId := 1 }

/-! ## Page walker: results -/

theorem lengthBelow_arr (items : List Json) (pageSize : Option Int) :
    lengthBelow (some (.num items.length)) pageSize
      = decide ((items.length : Int) < pageSize.getD 0) := by
  simp [lengthBelow, Json.toNumber]

theorem get_length_arr (items : List Json) :
    (Json.arr items).get "length" = .ok (some (.num items.length)) := by
  simp [Json.get]

theorem truthy_arr (items : List Json) : (Json.arr items).truthy = true := rfl

theorem isChain_ne_nil {get : Transport} {uri : Json} {pageSize : Option Int}
    {pages : List (List Json)} (h : IsChain get uri pageSize pages) : pages ≠ [] := by
  intro hp
  subst hp
  simp [IsChain] at h

theorem walk_chain (get : Transport) (pages : List (List Json)) :
    ∀ (uri : Json) (pageSize : Option Int) (extra : Nat),
      IsChain get uri pageSize pages →
      ∃ calls, getPaginatedJson get (pages.length + extra) uri pageSize
          = (.resolved (.arr pages.flatten), calls) ∧ calls.length = pages.length := by
  induction pages with
  | nil => intro uri pageSize extra h; simp [IsChain] at h
  | cons items rest ih =>
    intro uri pageSize extra h
    cases rest with
    | nil =>
      obtain ⟨json, ⟨r, hget, hok, hjson⟩, hdata, hnext⟩ := h
      refine ⟨[(uri, pageSize)], ?_, rfl⟩
      simp [getPaginatedJson, Nat.add_comm, hget, hok, hjson, hdata, hnext, truthy_arr]
    | cons more rest =>
      obtain ⟨json, next, ⟨r, hget, hok, hjson⟩, hdata, hnext, htruthy, hfull, hrest⟩ := h
      obtain ⟨calls, hwalk, hlen⟩ := ih next none extra hrest
      refine ⟨(uri, pageSize) :: calls, ?_, by simp [hlen]⟩
      have hfuel : (items :: more :: rest).length + extra
          = ((more :: rest).length + extra) + 1 := by
        simp only [List.length_cons]; omega
      rw [hfuel]
      have hnot : ¬ ((items.length : Int) < pageSize.getD 0) := by omega
      have hwalk2 : getPaginatedJson get (rest.length + 1 + extra) next none
          = (.resolved (.arr (more :: rest).flatten), calls) := hwalk
      simp [getPaginatedJson, hget, hok, hjson, hdata, hnext, htruthy, truthy_arr,
        get_length_arr, lengthBelow_arr, hnot, hwalk2, thenConcat, concat]

theorem get_of_hasField_false (json : Json) (key : String) (hnull : json ≠ .null)
    (hkey : key ≠ "length") (h : json.hasField key = false) : json.get key = .ok none := by
  cases json with
  | null => exact absurd rfl hnull
  | obj kv =>
    simp only [Json.hasField] at h
    simp only [Json.get]
    cases hl : kv.lookup key with
    | none => rfl
    | some v => simp [hl] at h
  | arr xs => simp [Json.get, hkey]
  | str s => simp [Json.get, hkey]
  | bool b => rfl
  | num n => rfl

theorem walk_of_no_data (get : Transport) (uri : Json) (pageSize : Option Int) (json : Json)
    (fuel : Nat) (hs : Serves get uri pageSize json) (hdata : json.get "data" = .ok none) :
    getPaginatedJson get (fuel + 1) uri pageSize = (.resolved json, [(uri, pageSize)]) := by
  obtain ⟨r, hget, hok, hjson⟩ := hs
  simp [getPaginatedJson, hget, hok, hjson, hdata]

theorem walk_of_no_next (get : Transport) (uri : Json) (pageSize : Option Int) (json data : Json)
    (fuel : Nat) (hs : Serves get uri pageSize json) (hdata : json.get "data" = .ok (some data))
    (htruthy : data.truthy = true) (hnext : json.get "next" = .ok none) :
    getPaginatedJson get (fuel + 1) uri pageSize = (.resolved data, [(uri, pageSize)]) := by
  obtain ⟨r, hget, hok, hjson⟩ := hs
  simp [getPaginatedJson, hget, hok, hjson, hdata, htruthy, hnext]

theorem get_error (json : Json) (key : String) (e : Err) (h : json.get key = .error e) :
    e = .typeError := by
  cases json <;> simp [Json.get] at h
  exact h.symm

theorem concat_error (data rest : Json) (e : Err) (h : concat data rest = .error e) :
    e = .typeError := by
  cases data <;> simp [concat] at h
  any_goals exact h.symm
  rename_i xs
  cases rest <;> simp at h

/-- The three ways one round of the walk can go: the response has a
non-success status; the walk settles on this page for another reason; the walk
follows `next`. -/
theorem walk_succ (get : Transport) (fuel : Nat) (uri : Json) (pageSize : Option Int) :
    (∃ r, get uri pageSize = .responds r ∧ r.ok = false ∧
      getPaginatedJson get (fuel + 1) uri pageSize
        = (.rejected (.http (httpMessage uri r) r), [(uri, pageSize)])) ∨
    (¬ NonSuccess get (uri, pageSize) ∧ ∃ out, (∀ u r, out ≠ .rejected (.http u r)) ∧
      out ≠ .pending ∧
      getPaginatedJson get (fuel + 1) uri pageSize = (out, [(uri, pageSize)])) ∨
    (¬ NonSuccess get (uri, pageSize) ∧ ∃ json data next length,
      Serves get uri pageSize json ∧ json.get "data" = .ok (some data) ∧ data.truthy = true ∧
      json.get "next" = .ok (some next) ∧ next.truthy = true ∧
      data.get "length" = .ok length ∧ lengthBelow length pageSize = false ∧
      getPaginatedJson get (fuel + 1) uri pageSize
        = thenConcat data (uri, pageSize) (getPaginatedJson get fuel next none)) := by
  cases hget : get uri pageSize with
  | rejects reason =>
    refine Or.inr (Or.inl ⟨?_, _, ?_, ?_, by simp [getPaginatedJson, hget]; rfl⟩)
    · rintro ⟨r, h, _⟩
      simp [hget] at h
    · intro u r h; cases h
    · intro h; cases h
  | responds response =>
    cases hok : response.ok with
    | false =>
      exact Or.inl ⟨response, rfl, hok, by simp [getPaginatedJson, hget, hok]⟩
    | true =>
      have hcall : ¬ NonSuccess get (uri, pageSize) := by
        rintro ⟨r, h, hr⟩
        simp only [hget, Reply.responds.injEq] at h
        subst h
        simp [hr] at hok
      cases hjson : response.json with
      | none =>
        exact Or.inr (Or.inl ⟨hcall, .rejected .decode, (by intro u r h; cases h), (by intro h; cases h),
            (by simp [getPaginatedJson, hget, hok, hjson])⟩)
      | some json =>
        cases hdata : json.get "data" with
        | error e =>
          have he := get_error json "data" e hdata
          subst he
          exact Or.inr (Or.inl ⟨hcall, .rejected .typeError, (by intro u r h; cases h), (by intro h; cases h),
            (by simp [getPaginatedJson, hget, hok, hjson, hdata])⟩)
        | ok data? =>
          cases data? with
          | none =>
            exact Or.inr (Or.inl ⟨hcall, .resolved json, (by intro u r h; cases h), (by intro h; cases h),
            (by simp [getPaginatedJson, hget, hok, hjson, hdata])⟩)
          | some data =>
            cases hdt : data.truthy with
            | false =>
              exact Or.inr (Or.inl ⟨hcall, .resolved json, (by intro u r h; cases h), (by intro h; cases h),
            (by simp [getPaginatedJson, hget, hok, hjson, hdata, hdt])⟩)
            | true =>
              cases hnext : json.get "next" with
              | error e =>
                have he := get_error json "next" e hnext
                subst he
                exact Or.inr (Or.inl ⟨hcall, .rejected .typeError, (by intro u r h; cases h), (by intro h; cases h),
            (by simp [getPaginatedJson, hget, hok, hjson, hdata, hdt, hnext])⟩)
              | ok next? =>
                cases next? with
                | none =>
                  exact Or.inr (Or.inl ⟨hcall, .resolved data, (by intro u r h; cases h), (by intro h; cases h),
            (by simp [getPaginatedJson, hget, hok, hjson, hdata, hdt, hnext])⟩)
                | some next =>
                  cases hnt : next.truthy with
                  | false =>
                    exact Or.inr (Or.inl ⟨hcall, .resolved data, (by intro u r h; cases h), (by intro h; cases h),
            (by simp [getPaginatedJson, hget, hok, hjson, hdata, hdt, hnext, hnt])⟩)
                  | true =>
                    cases hlen : data.get "length" with
                    | error e =>
                      have he := get_error data "length" e hlen
                      subst he
                      exact Or.inr (Or.inl ⟨hcall, .rejected .typeError, (by intro u r h; cases h), (by intro h; cases h),
            (by simp [getPaginatedJson, hget, hok, hjson, hdata, hdt, hnext, hnt,
                          hlen])⟩)
                    | ok length =>
                      cases hbelow : lengthBelow length pageSize with
                      | true =>
                        exact Or.inr (Or.inl ⟨hcall, .resolved data, (by intro u r h; cases h), (by intro h; cases h),
            (by simp [getPaginatedJson, hget, hok, hjson, hdata, hdt, hnext, hnt,
                            hlen, hbelow])⟩)
                      | false =>
                        exact Or.inr (Or.inr ⟨hcall, json, data, next, length,
                          ⟨response, hget, hok, hjson⟩, hdata, hdt, hnext, hnt, hlen, hbelow,
                          by simp [getPaginatedJson, hget, hok, hjson, hdata, hdt, hnext, hnt,
                            hlen, hbelow]⟩)

theorem thenConcat_calls (data : Json) (call : Call) (rest : Settled Json × List Call) :
    (thenConcat data call rest).2 = call :: rest.2 := by
  obtain ⟨out, calls⟩ := rest
  cases out with
  | resolved more => simp only [thenConcat]; split <;> rfl
  | rejected e => rfl
  | pending => rfl

theorem thenConcat_http (data : Json) (call : Call) (rest : Settled Json × List Call)
    (m : String) (r : Response) :
    (thenConcat data call rest).1 = .rejected (.http m r) ↔ rest.1 = .rejected (.http m r) := by
  obtain ⟨out, calls⟩ := rest
  cases out with
  | resolved more =>
    simp only [thenConcat]
    split
    · simp
    · rename_i e he
      have := concat_error data more e he
      subst this
      simp
  | rejected e => simp [thenConcat]
  | pending => simp [thenConcat]

theorem walk_httpFailureSpec (get : Transport) (fuel : Nat) :
    ∀ (uri : Json) (pageSize : Option Int),
      HttpFailureSpec get (getPaginatedJson get fuel uri pageSize) := by
  induction fuel with
  | zero =>
    intro uri pageSize
    simp [getPaginatedJson, HttpFailureSpec]
  | succ fuel ih =>
    intro uri pageSize
    rcases walk_succ get fuel uri pageSize with
      ⟨r, hget, hok, hwalk⟩ | ⟨hcall, out, hout, _, hwalk⟩ |
      ⟨hcall, json, data, next, length, _, _, _, _, _, _, _, hwalk⟩
    · rw [hwalk]
      refine ⟨⟨fun _ => ⟨_, r, rfl⟩, fun _ => ⟨(uri, pageSize), by simp, r, hget, hok⟩⟩, ?_⟩
      intro m r' h
      simp only [Settled.rejected.injEq, Err.http.injEq] at h
      obtain ⟨hm, hr⟩ := h
      subst hm hr
      exact ⟨[], uri, pageSize, rfl, rfl, hget, hok, by simp⟩
    · rw [hwalk]
      refine ⟨⟨?_, ?_⟩, ?_⟩
      · rintro ⟨c, hc, hns⟩
        simp only [List.mem_singleton] at hc
        subst hc
        exact absurd hns hcall
      · rintro ⟨u, r, h⟩
        exact absurd h (hout u r)
      · intro u r h
        exact absurd h (hout u r)
    · rw [hwalk]
      obtain ⟨hiff, hlast⟩ := ih next none
      refine ⟨⟨?_, ?_⟩, ?_⟩
      · rintro ⟨c, hc, hns⟩
        rw [thenConcat_calls] at hc
        simp only [List.mem_cons] at hc
        rcases hc with rfl | hc
        · exact absurd hns hcall
        · obtain ⟨u, r, h⟩ := hiff.mp ⟨c, hc, hns⟩
          exact ⟨u, r, (thenConcat_http data _ _ u r).mpr h⟩
      · rintro ⟨u, r, h⟩
        obtain ⟨c, hc, hns⟩ := hiff.mpr ⟨u, r, (thenConcat_http data _ _ u r).mp h⟩
        exact ⟨c, by rw [thenConcat_calls]; exact List.mem_cons_of_mem _ hc, hns⟩
      · intro m r h
        obtain ⟨earlier, u, hint, hcalls, hmsg, hget, hok, hearlier⟩ :=
          hlast m r ((thenConcat_http data _ _ m r).mp h)
        refine ⟨(uri, pageSize) :: earlier, u, hint, ?_, hmsg, hget, hok, ?_⟩
        · rw [thenConcat_calls, hcalls]; rfl
        · intro c hc
          simp only [List.mem_cons] at hc
          rcases hc with rfl | hc
          · exact hcall
          · exact hearlier c hc

/-! ## Claims about the page walker -/

/-- C1: for every chain of `N ≥ 1` successful pages in which every page before
the last links to the following page and is full, and the last page has no
`next`, `getPaginatedJson` on the first target resolves, after one transport
call per page, to the concatenation of the pages' `data` in order, whose
length is the sum of the page lengths. -/
theorem getPaginatedJson_chain_concat (get : Transport) (pages : List (List Json))
    (uri : Json) (pageSize : Option Int) (extra : Nat)
    (h : IsChain get uri pageSize pages) :
    1 ≤ pages.length ∧
    (∃ calls, getPaginatedJson get (pages.length + extra) uri pageSize
        = (.resolved (.arr pages.flatten), calls) ∧ calls.length = pages.length) ∧
    pages.flatten.length = (pages.map List.length).sum := by
  refine ⟨?_, walk_chain get pages uri pageSize extra h, List.length_flatten pages⟩
  have := isChain_ne_nil h
  cases pages with
  | nil => exact absurd rfl this
  | cons p ps => simp

theorem twoPages_isChain :
    IsChain twoPages (.str "/p1") (some 3) [[.num 1, .num 2, .num 3], [.num 4, .num 5]] :=
  ⟨_, .str "/p2", ⟨_, rfl, rfl, rfl⟩, rfl, rfl, rfl, by decide, _, ⟨_, rfl, rfl, rfl⟩, rfl, rfl⟩

/-- The specification's example for C1: pages `[1,2,3]` and `[4,5]` with page
size 3 are walked into `[1,2,3,4,5]`. -/
theorem getPaginatedJson_chain_concat_witness :
    IsChain twoPages (.str "/p1") (some 3) [[.num 1, .num 2, .num 3], [.num 4, .num 5]] ∧
    getPaginatedJson twoPages 2 (.str "/p1") (some 3)
      = (.resolved (.arr [.num 1, .num 2, .num 3, .num 4, .num 5]),
          [(.str "/p1", some 3), (.str "/p2", none)]) ∧
    (1 ≤ 2 ∧
      (∃ calls, getPaginatedJson twoPages (2 + 0) (.str "/p1") (some 3)
          = (.resolved (.arr [.num 1, .num 2, .num 3, .num 4, .num 5]), calls)
          ∧ calls.length = 2) ∧
      5 = 3 + (2 + 0)) :=
  ⟨twoPages_isChain, rfl,
    getPaginatedJson_chain_concat twoPages [[.num 1, .num 2, .num 3], [.num 4, .num 5]]
      (.str "/p1") (some 3) 0 twoPages_isChain⟩

/-- C2: when the first page is successful, carries a `data` array and a `next`
field, and the array is shorter than the page size, `getPaginatedJson`
resolves to exactly that array after exactly one transport call, whatever the
transport holds for `next`. -/
theorem getPaginatedJson_short_first_page (get : Transport) (uri : Json) (pageSize : Int)
    (json next : Json) (items : List Json) (fuel : Nat)
    (hs : Serves get uri (some pageSize) json)
    (hdata : json.get "data" = .ok (some (.arr items)))
    (hnext : json.get "next" = .ok (some next))
    (hshort : (items.length : Int) < pageSize) :
    getPaginatedJson get (fuel + 1) uri (some pageSize)
      = (.resolved (.arr items), [(uri, some pageSize)]) := by
  obtain ⟨r, hget, hok, hjson⟩ := hs
  by_cases ht : next.truthy = true
  · simp [getPaginatedJson, hget, hok, hjson, hdata, hnext, ht, truthy_arr,
      get_length_arr, lengthBelow_arr, hshort]
  · simp [getPaginatedJson, hget, hok, hjson, hdata, hnext, ht, truthy_arr]

/-- The specification's example for C2: the page `[1,2]` with a `next` link
and page size 3 resolves to `[1,2]`, and `/p2` is never fetched. -/
theorem getPaginatedJson_short_first_page_witness :
    Serves shortFirstPage (.str "/p1") (some 3)
        (.obj [("data", .arr [.num 1, .num 2]), ("next", .str "/p2")]) ∧
    ((2 : Nat) : Int) < 3 ∧
    getPaginatedJson shortFirstPage (4 + 1) (.str "/p1") (some 3)
      = (.resolved (.arr [.num 1, .num 2]), [(.str "/p1", some 3)]) :=
  ⟨⟨_, rfl, rfl, rfl⟩, by decide,
    getPaginatedJson_short_first_page shortFirstPage (.str "/p1") 3
      (.obj [("data", .arr [.num 1, .num 2]), ("next", .str "/p2")]) (.str "/p2")
      [.num 1, .num 2] 4 ⟨_, rfl, rfl, rfl⟩ rfl rfl (by decide)⟩

/-- C3, as stated, fails in its "exactly when": a walk also rejects when the
transport itself rejects, although no response with a non-success status was
fetched. -/
theorem getPaginatedJson_rejects_without_http_status :
    getPaginatedJson unreachable 1 (.str "/apis") (some 3)
      = (.rejected (.transport "ECONNREFUSED"), [(.str "/apis", some 3)]) ∧
    ¬ ∃ c ∈ (getPaginatedJson unreachable 1 (.str "/apis") (some 3)).2,
        NonSuccess unreachable c := by
  refine ⟨rfl, ?_⟩
  rintro ⟨c, _, r, h, _⟩
  simp [unreachable] at h

/-- C3, amended: `getPaginatedJson` rejects with the HTTP error of
`adminApi.js:86` exactly when one of the responses it fetches during the walk
(the first page or a continuation page) has a non-success status; the error
message names the target of the failing request with its numeric status and
status text and the error carries the response, the promise is rejected
rather than resolved with data of earlier pages, and the failing request is
the last transport call of the walk. -/
theorem getPaginatedJson_http_failure (get : Transport) (fuel : Nat) (uri : Json)
    (pageSize : Option Int) :
    ((∃ c ∈ (getPaginatedJson get fuel uri pageSize).2, NonSuccess get c) ↔
      ∃ m r, (getPaginatedJson get fuel uri pageSize).1 = .rejected (.http m r)) ∧
    (∀ m r, (getPaginatedJson get fuel uri pageSize).1 = .rejected (.http m r) →
      ∃ earlier u h, (getPaginatedJson get fuel uri pageSize).2 = earlier ++ [(u, h)] ∧
        m = u.toStr ++ ": " ++ toString r.status ++ " " ++ r.statusText ∧
        get u h = .responds r ∧ r.ok = false ∧ ∀ c ∈ earlier, ¬ NonSuccess get c) :=
  walk_httpFailureSpec get fuel uri pageSize

/-- A failing continuation page: the walk of `brokenSecondPage` fetches `/p1`,
then `/p2`, which answers 500, and rejects with the error of `/p2`. -/
theorem getPaginatedJson_http_failure_witness :
    getPaginatedJson brokenSecondPage 5 (.str "/p1") (some 2)
      = (.rejected (.http (httpMessage (.str "/p2") ⟨false, 500, "Internal Server Error", none⟩)
            ⟨false, 500, "Internal Server Error", none⟩),
          [(.str "/p1", some 2), (.str "/p2", none)]) ∧
    ((∃ c ∈ (getPaginatedJson brokenSecondPage 5 (.str "/p1") (some 2)).2,
        NonSuccess brokenSecondPage c) ↔
      ∃ m r, (getPaginatedJson brokenSecondPage 5 (.str "/p1") (some 2)).1
        = .rejected (.http m r)) :=
  ⟨rfl, (getPaginatedJson_http_failure brokenSecondPage 5 (.str "/p1") (some 2)).1⟩

/-- C4, as stated, fails when the decoded body is `null`: the body has no
`data` field, yet the read `json.data` throws and the walk rejects. -/
theorem getPaginatedJson_null_body_rejects :
    Serves nullBody (.str "/status") none .null ∧
    Json.null.hasField "data" = false ∧
    getPaginatedJson nullBody 1 (.str "/status") none
      = (.rejected .typeError, [(.str "/status", none)]) :=
  ⟨⟨_, rfl, rfl, rfl⟩, rfl, rfl⟩

/-- C4, amended: for every successful response whose decoded body is not
`null` and has no `data` field, and for every page size, `getPaginatedJson`
resolves to the decoded body unchanged after exactly one transport call, even
if the body carries a `next` field. -/
theorem getPaginatedJson_no_data_field (get : Transport) (uri : Json) (pageSize : Option Int)
    (json : Json) (fuel : Nat) (hs : Serves get uri pageSize json)
    (hnull : json ≠ .null) (hdata : json.hasField "data" = false) :
    getPaginatedJson get (fuel + 1) uri pageSize = (.resolved json, [(uri, pageSize)]) :=
  walk_of_no_data get uri pageSize json fuel hs
    (get_of_hasField_false json "data" hnull (by decide) hdata)

/-- A body without `data` but with `next` is returned whole: the root document
of `serverInfo`. -/
theorem getPaginatedJson_no_data_field_witness :
    Serves serverInfo (.str "/") (some 3) (.obj [("version", .str "0.14.1"), ("next", .str "/p2")]) ∧
    getPaginatedJson serverInfo (0 + 1) (.str "/") (some 3)
      = (.resolved (.obj [("version", .str "0.14.1"), ("next", .str "/p2")]),
          [(.str "/", some 3)]) :=
  ⟨⟨_, rfl, rfl, rfl⟩,
    getPaginatedJson_no_data_field serverInfo (.str "/") (some 3)
      (.obj [("version", .str "0.14.1"), ("next", .str "/p2")]) 0 ⟨_, rfl, rfl, rfl⟩
      (by simp) rfl⟩

/-- C5, as stated, fails when the `data` field holds a falsy value: the body
`{"data": null}` has a `data` field and no `next` field, yet the walk
resolves to the enclosing body, not to the value of `data`. -/
theorem getPaginatedJson_falsy_data_returns_body :
    Serves falsyData (.str "/apis") none (.obj [("data", .null)]) ∧
    (Json.obj [("data", .null)]).hasField "data" = true ∧
    (Json.obj [("data", .null)]).get "data" = .ok (some .null) ∧
    (Json.obj [("data", .null)]).hasField "next" = false ∧
    getPaginatedJson falsyData 1 (.str "/apis") none
      = (.resolved (.obj [("data", .null)]), [(.str "/apis", none)]) :=
  ⟨⟨_, rfl, rfl, rfl⟩, rfl, rfl, rfl, rfl⟩

/-- C5, amended: for every successful response whose decoded body has a
`data` field holding a truthy value (any array or object, a non-empty string,
a non-zero number, `true`) and no `next` field, and for every page size,
`getPaginatedJson` resolves to exactly the value of the `data` field after
exactly one transport call. -/
theorem getPaginatedJson_data_no_next (get : Transport) (uri : Json) (pageSize : Option Int)
    (json data : Json) (fuel : Nat) (hs : Serves get uri pageSize json)
    (hdata : json.get "data" = .ok (some data)) (htruthy : data.truthy = true)
    (hnext : json.hasField "next" = false) :
    getPaginatedJson get (fuel + 1) uri pageSize = (.resolved data, [(uri, pageSize)]) := by
  have hnull : json ≠ .null := by
    rintro rfl
    simp [Json.get] at hdata
  exact walk_of_no_next get uri pageSize json data fuel hs hdata htruthy
    (get_of_hasField_false json "next" hnull (by decide) hnext)

/-- The last page of `twoPages` resolves to its `data`, `[4,5]`. -/
theorem getPaginatedJson_data_no_next_witness :
    Serves twoPages (.str "/p2") none (.obj [("data", .arr [.num 4, .num 5])]) ∧
    getPaginatedJson twoPages (0 + 1) (.str "/p2") none
      = (.resolved (.arr [.num 4, .num 5]), [(.str "/p2", none)]) :=
  ⟨⟨_, rfl, rfl, rfl⟩,
    getPaginatedJson_data_no_next twoPages (.str "/p2") none
      (.obj [("data", .arr [.num 4, .num 5])]) (.arr [.num 4, .num 5]) 0
      ⟨_, rfl, rfl, rfl⟩ rfl rfl rfl⟩

/-! ## Request cache: results -/

theorem lookup_cons_self {β : Type} (uri : String) (v : β) (rest : List (String × β)) :
    List.lookup uri ((uri, v) :: rest) = some v := by
  simp [List.lookup]

theorem lookup_cons_ne {β : Type} (uri other : String) (v : β) (rest : List (String × β))
    (h : uri ≠ other) : List.lookup uri ((other, v) :: rest) = List.lookup uri rest := by
  have : (uri == other) = false := by simpa using h
  simp [List.lookup, this]

theorem cache_hit (get : Transport) (fuel : Nat) (uri : String) (pageSize : Option Int)
    (w : World) (p : Promise Json) (h : w.resultsCache.lookup uri = some p) :
    getPaginatedJsonCache get fuel uri pageSize w = (p, w) := by
  simp [getPaginatedJsonCache, h]

theorem cache_miss (get : Transport) (fuel : Nat) (uri : String) (pageSize : Option Int)
    (w : World) (h : w.resultsCache.lookup uri = none) :
    getPaginatedJsonCache get fuel uri pageSize w
      = ((callGetPaginatedJson get fuel uri pageSize w).1,
          { (callGetPaginatedJson get fuel uri pageSize w).2 with
            resultsCache := (uri, (callGetPaginatedJson get fuel uri pageSize w).1)
              :: (callGetPaginatedJson get fuel uri pageSize w).2.resultsCache }) := by
  simp [getPaginatedJsonCache, h]

theorem cache_stores (get : Transport) (fuel : Nat) (uri : String) (pageSize : Option Int)
    (w : World) :
    (getPaginatedJsonCache get fuel uri pageSize w).2.resultsCache.lookup uri
      = some (getPaginatedJsonCache get fuel uri pageSize w).1 := by
  cases h : w.resultsCache.lookup uri with
  | some p => rw [cache_hit get fuel uri pageSize w p h]; exact h
  | none => rw [cache_miss get fuel uri pageSize w h]; exact lookup_cons_self _ _ _

theorem cache_keeps (get : Transport) (fuel : Nat) (uri other : String)
    (pageSize : Option Int) (w : World) (p : Promise Json)
    (h : w.resultsCache.lookup uri = some p) :
    (getPaginatedJsonCache get fuel other pageSize w).2.resultsCache.lookup uri = some p := by
  cases ho : w.resultsCache.lookup other with
  | some q => rw [cache_hit get fuel other pageSize w q ho]; exact h
  | none =>
    rw [cache_miss get fuel other pageSize w ho]
    have hne : uri ≠ other := by
      rintro rfl
      rw [h] at ho
      cases ho
    show List.lookup uri ((other, _) :: _) = some p
    rw [lookup_cons_ne uri other _ _ hne]
    exact h

theorem runCachedReads_keeps (reads : List CachedRead) :
    ∀ (w : World) (uri : String) (p : Promise Json),
      w.resultsCache.lookup uri = some p →
      (runCachedReads reads w).resultsCache.lookup uri = some p := by
  induction reads with
  | nil => intro w uri p h; exact h
  | cons r rest ih =>
    intro w uri p h
    exact ih _ uri p (cache_keeps r.get r.fuel uri r.uri r.pageSize w p h)

theorem walk_first_call (get : Transport) (fuel : Nat) (uri : Json) (pageSize : Option Int) :
    ∃ rest, (getPaginatedJson get (fuel + 1) uri pageSize).2 = (uri, pageSize) :: rest := by
  rcases walk_succ get fuel uri pageSize with
    ⟨r, _, _, hwalk⟩ | ⟨_, out, _, _, hwalk⟩ | ⟨_, json, data, next, length, _, _, _, _, _, _, _, hwalk⟩
  · exact ⟨[], by rw [hwalk]⟩
  · exact ⟨[], by rw [hwalk]⟩
  · exact ⟨_, by rw [hwalk, thenConcat_calls]⟩

/-! ## Claims about the request cache -/

/-- Whatever the state of the module, after a first cached read of a target
every later cached read of the same target, with any cached reads of any
targets in between and no `requestEndpoint` call, returns
the very promise stored by the first read (pending, resolved or rejected) and
leaves the module as it was: the walker is not started and no transport call
is issued, whatever the transport and the page size of the later read. -/
theorem getPaginatedJsonCache_reuses_first_read (first : CachedRead)
    (between : List CachedRead) (laterGet : Transport) (laterFuel : Nat)
    (laterPageSize : Option Int) (w : World) :
    getPaginatedJsonCache laterGet laterFuel first.uri laterPageSize
        (runCachedReads between
          (getPaginatedJsonCache first.get first.fuel first.uri first.pageSize w).2)
      = ((getPaginatedJsonCache first.get first.fuel first.uri first.pageSize w).1,
          runCachedReads between
            (getPaginatedJsonCache first.get first.fuel first.uri first.pageSize w).2) :=
  cache_hit _ _ _ _ _ _
    (runCachedReads_keeps between _ first.uri _
      (cache_stores first.get first.fuel first.uri first.pageSize w))

theorem config_getPaginatedJson_cached (cfg : Config) (h : cfg.cache = true) :
    cfg.getPaginatedJson = getPaginatedJsonCache := by
  funext get fuel uri pageSize w
  simp [Config.getPaginatedJson, h]

theorem config_getPaginatedJson_uncached (cfg : Config) (h : cfg.cache = false) :
    cfg.getPaginatedJson = callGetPaginatedJson := by
  funext get fuel uri pageSize w
  simp [Config.getPaginatedJson, h]

/-- C7: for every state of the request cache and every
`requestEndpoint(endpoint, params)` call, the cache is cleared before the
transport call is issued and is empty afterwards whatever the transport
answers (success, non-success status or rejection); the next cached read of
any target then starts a fresh walk, whose first transport call fetches that
target, and stores its new promise. -/
theorem requestEndpoint_clears_resultsCache (cfg : Config) (request : RequestTransport)
    (endpoint : Endpoint) (params : Params) (w : World) :
    requestEndpoint cfg request endpoint params w
      = sendRequest cfg request endpoint params (clearResultsCache w) ∧
    (clearResultsCache w).resultsCache = [] ∧
    (requestEndpoint cfg request endpoint params w).1
      = request (cfg.router endpoint) (prepareOptions params) ∧
    (requestEndpoint cfg request endpoint params w).2.resultsCache = [] ∧
    ∀ (get : Transport) (fuel : Nat) (uri : String) (pageSize : Option Int),
      getPaginatedJsonCache get fuel uri pageSize
          (requestEndpoint cfg request endpoint params w).2
        = ({ id := w.nextId, settled := (getPaginatedJson get fuel (.str uri) pageSize).1 },
            { (requestEndpoint cfg request endpoint params w).2 with
              calls := w.calls ++ (getPaginatedJson get fuel (.str uri) pageSize).2,
              nextId := w.nextId + 1,
              resultsCache :=
                [(uri, { id := w.nextId,
                         settled := (getPaginatedJson get fuel (.str uri) pageSize).1 })] }) ∧
      ∃ rest, (getPaginatedJsonCache get (fuel + 1) uri pageSize
          (requestEndpoint cfg request endpoint params w).2).2.calls
        = w.calls ++ (.str uri, pageSize) :: rest := by
  refine ⟨rfl, rfl, rfl, rfl, ?_⟩
  intro get fuel uri pageSize
  refine ⟨rfl, ?_⟩
  obtain ⟨rest, hrest⟩ := walk_first_call get fuel (.str uri) pageSize
  exact ⟨rest, by
    show w.calls ++ (getPaginatedJson get (fuel + 1) (.str uri) pageSize).2 = _
    rw [hrest]⟩

theorem cache_miss_lookup (get : Transport) (fuel : Nat) (uri other : String)
    (pageSize : Option Int) (w : World) (h : w.resultsCache.lookup other = none) :
    (getPaginatedJsonCache get fuel other pageSize w).2.resultsCache.lookup uri
      = if uri = other then some (callGetPaginatedJson get fuel other pageSize w).1
        else w.resultsCache.lookup uri := by
  rw [cache_miss get fuel other pageSize w h]
  show List.lookup uri ((other, _) :: w.resultsCache) = _
  by_cases hne : uri = other
  · subst hne
    simp [lookup_cons_self]
  · simp [lookup_cons_ne uri other _ _ hne, hne]

theorem runReadsOn_invariant (get : Transport) (fuel : Nat) (uri : String)
    (pageSize : Option Int) (history : List (String × Option Int)) :
    ∀ (w : World),
      (∀ r ∈ history, r.1 = uri → r.2 = pageSize) →
      (∀ p, w.resultsCache.lookup uri = some p →
        p.settled = (getPaginatedJson get fuel (.str uri) pageSize).1) →
      ∀ p, (runReadsOn get fuel history w).resultsCache.lookup uri = some p →
        p.settled = (getPaginatedJson get fuel (.str uri) pageSize).1 := by
  induction history with
  | nil => intro w _ hinv p hp; exact hinv p hp
  | cons r rest ih =>
    intro w hsame hinv
    refine ih _ (fun r' hr' => hsame r' (List.mem_cons_of_mem _ hr')) ?_
    intro p hp
    cases ho : w.resultsCache.lookup r.1 with
    | some q =>
      rw [cache_hit get fuel r.1 r.2 w q ho] at hp
      exact hinv p hp
    | none =>
      rw [cache_miss_lookup get fuel uri r.1 r.2 w ho] at hp
      by_cases hne : uri = r.1
      · have hps : r.2 = pageSize := hsame r (List.mem_cons_self _ _) hne.symm
        rw [if_pos hne] at hp
        cases hp
        rw [← hps, hne]
        rfl
      · rw [if_neg hne] at hp
        exact hinv p hp

/-- C8, as stated, fails: the cache is keyed by the target alone, so a read
of `/p1` with page size 2 made after a cached read of `/p1` with page size 3
is served the result of the earlier read, `[1,2]`, while the uncached walk
with page size 2 against the same unchanged server follows `next` and gives
`[1,2,3]`. -/
theorem getPaginatedJsonCache_collides_on_page_size :
    (getPaginatedJsonCache shortFirstPage 5 "/p1" (some 2)
        (runReadsOn shortFirstPage 5 [("/p1", some 3)] World.initial)).1.settled
      = .resolved (.arr [.num 1, .num 2]) ∧
    (getPaginatedJson shortFirstPage 5 (.str "/p1") (some 2)).1
      = .resolved (.arr [.num 1, .num 2, .num 3]) ∧
    (getPaginatedJsonCache shortFirstPage 5 "/p1" (some 2)
        (runReadsOn shortFirstPage 5 [("/p1", some 3)] World.initial)).1.settled
      ≠ (getPaginatedJson shortFirstPage 5 (.str "/p1") (some 2)).1 := by
  have h1 : (getPaginatedJsonCache shortFirstPage 5 "/p1" (some 2)
        (runReadsOn shortFirstPage 5 [("/p1", some 3)] World.initial)).1.settled
      = .resolved (.arr [.num 1, .num 2]) := rfl
  have h2 : (getPaginatedJson shortFirstPage 5 (.str "/p1") (some 2)).1
      = .resolved (.arr [.num 1, .num 2, .num 3]) := rfl
  refine ⟨h1, h2, ?_⟩
  rw [h1, h2]
  intro h
  simp at h

/-- C8, amended: against an unchanging server and with no intervening
mutation, starting from an empty request cache, for every target, every page
size and every history of earlier cached reads in which that target was read
with that same page size only, `getPaginatedJsonCache(target, pageSize)`
settles the way the uncached `getPaginatedJson(target, pageSize)` does. -/
theorem getPaginatedJsonCache_agrees_with_uncached (get : Transport) (fuel : Nat)
    (uri : String) (pageSize : Option Int) (history : List (String × Option Int)) (w : World)
    (hempty : w.resultsCache = [])
    (hsame : ∀ r ∈ history, r.1 = uri → r.2 = pageSize) :
    (getPaginatedJsonCache get fuel uri pageSize (runReadsOn get fuel history w)).1.settled
      = (getPaginatedJson get fuel (.str uri) pageSize).1 := by
  have hinv := runReadsOn_invariant get fuel uri pageSize history w hsame
    (by intro p hp; simp [hempty] at hp)
  cases ho : (runReadsOn get fuel history w).resultsCache.lookup uri with
  | some q =>
    rw [cache_hit get fuel uri pageSize _ q ho]
    exact hinv q ho
  | none =>
    rw [cache_miss get fuel uri pageSize _ ho]
    rfl

/-- After cached reads of `/p2` with no page size and of `/p1` with page size
2, a cached read of `/p1` with page size 2 gives what the uncached walk gives,
`[1,2,3]`. -/
theorem getPaginatedJsonCache_agrees_with_uncached_witness :
    World.initial.resultsCache = [] ∧
    (getPaginatedJson shortFirstPage 5 (.str "/p1") (some 2)).1
      = .resolved (.arr [.num 1, .num 2, .num 3]) ∧
    (getPaginatedJsonCache shortFirstPage 5 "/p1" (some 2)
        (runReadsOn shortFirstPage 5 [("/p2", none), ("/p1", some 2)] World.initial)).1.settled
      = (getPaginatedJson shortFirstPage 5 (.str "/p1") (some 2)).1 :=
  ⟨rfl, rfl,
    getPaginatedJsonCache_agrees_with_uncached shortFirstPage 5 "/p1" (some 2)
      [("/p2", none), ("/p1", some 2)] World.initial rfl
      (by
        intro r hr huri
        simp only [List.mem_cons, List.mem_singleton, List.not_mem_nil, or_false] at hr
        rcases hr with rfl | rfl
        · simp at huri
        · rfl)⟩

/-! ## Plugin schema cache: results -/

theorem fetchPluginSchemas_hit (cfg : Config) (get : Transport) (fuel : Nat) (w : World)
    (m : SchemaMap) (h : w.pluginSchemasCache = some m) :
    fetchPluginSchemas cfg get fuel w = (.resolved m, w) := by
  simp [fetchPluginSchemas, h]

theorem fetchPluginSchemas_miss (cfg : Config) (get : Transport) (fuel : Nat) (w : World)
    (h : w.pluginSchemasCache = none) :
    fetchPluginSchemas cfg get fuel w
      = storeSchemas (fetchSchemaPairs cfg get fuel w).1 (fetchSchemaPairs cfg get fuel w).2 := by
  simp [fetchPluginSchemas, h]

theorem fetchSchemaPairs_keeps_schemas (cfg : Config) (get : Transport) (fuel : Nat)
    (w : World) :
    (fetchSchemaPairs cfg get fuel w).2.pluginSchemasCache = w.pluginSchemasCache := by
  have henabled : ∀ uri pageSize,
      (cfg.getPaginatedJson get fuel uri pageSize w).2.pluginSchemasCache
        = w.pluginSchemasCache := by
    intro uri pageSize
    simp only [Config.getPaginatedJson, getPaginatedJsonCache, callGetPaginatedJson]
    repeat' split
    all_goals rfl
  simp only [fetchSchemaPairs]
  repeat' split
  all_goals exact henabled _ _

theorem fetchPluginSchemas_resolved_stores (cfg : Config) (get : Transport) (fuel : Nat)
    (w : World) (m : SchemaMap) (h : (fetchPluginSchemas cfg get fuel w).1 = .resolved m) :
    (fetchPluginSchemas cfg get fuel w).2.pluginSchemasCache = some m := by
  cases hc : w.pluginSchemasCache with
  | some cached =>
    rw [fetchPluginSchemas_hit cfg get fuel w cached hc] at h ⊢
    simp only [Settled.resolved.injEq] at h
    rw [← h]
    exact hc
  | none =>
    rw [fetchPluginSchemas_miss cfg get fuel w hc] at h ⊢
    cases hall : (fetchSchemaPairs cfg get fuel w).1 with
    | resolved pairs =>
      rw [hall] at h
      simp only [storeSchemas, Settled.resolved.injEq] at h
      simp only [storeSchemas]
      rw [← h]
    | rejected e => rw [hall] at h; simp [storeSchemas] at h
    | pending => rw [hall] at h; simp [storeSchemas] at h

theorem runFetchPluginSchemas_hit (calls : List SchemaCall) (w : World) (m : SchemaMap)
    (h : w.pluginSchemasCache = some m) :
    runFetchPluginSchemas calls w = (calls.map fun _ => .resolved m, w) := by
  induction calls with
  | nil => rfl
  | cons c rest ih =>
    simp only [runFetchPluginSchemas, fetchPluginSchemas_hit c.cfg c.get c.fuel w m h, ih,
      List.map_cons]

theorem firstRejection_of_mem {α : Type} (promises : List (Settled α)) (e : Err)
    (h : Settled.rejected e ∈ promises) :
    ∃ e', firstRejection promises = some e' ∧ Settled.rejected e' ∈ promises := by
  induction promises with
  | nil => simp at h
  | cons p rest ih =>
    cases p with
    | rejected e' => exact ⟨e', rfl, List.mem_cons_self _ _⟩
    | resolved v =>
      have hrest : Settled.rejected e ∈ rest := by
        simpa using h
      obtain ⟨e', h1, h2⟩ := ih hrest
      exact ⟨e', h1, List.mem_cons_of_mem _ h2⟩
    | pending =>
      have hrest : Settled.rejected e ∈ rest := by
        simpa using h
      obtain ⟨e', h1, h2⟩ := ih hrest
      exact ⟨e', h1, List.mem_cons_of_mem _ h2⟩

theorem fetchSchemaPairs_fails (cfg : Config) (get : Transport) (fuel : Nat) (w : World)
    (e : Err) (h : SchemaFetchFails cfg get fuel w e) :
    ∃ e', (fetchSchemaPairs cfg get fuel w).1 = .rejected e' ∧
      SchemaFetchFails cfg get fuel w e' := by
  rcases h with h | ⟨json, enabledPlugins, names, hjson, hep, hnames, plugin, hmem, hplugin⟩
  · exact ⟨e, by simp [fetchSchemaPairs, h], Or.inl h⟩
  · have hin : Settled.rejected e
        ∈ (names.map fun plugin => getPluginScheme get fuel plugin (schemaRoute cfg)).map
            Prod.fst := by
      simp only [List.map_map, List.mem_map, Function.comp]
      exact ⟨plugin, hmem, hplugin⟩
    obtain ⟨e', hfirst, hlisted⟩ := firstRejection_of_mem _ e hin
    simp only [List.map_map, List.mem_map, Function.comp] at hlisted
    obtain ⟨failing, hnamed, hscheme⟩ := hlisted
    refine ⟨e', ?_, Or.inr ⟨json, enabledPlugins, names, hjson, hep, hnames, failing, hnamed,
      hscheme⟩⟩
    simp only [fetchSchemaPairs, hjson, hep, hnames, promiseAll, hfirst]

/-! ## Claims about the plugin schema cache -/

/-- C9, as stated, fails when two calls overlap: both find the cache empty,
the first resolves and stores the map with identity 2, the second resolves
afterwards and overwrites the cache with the map with identity 3, and a call
made after that resolves to the map with identity 3, not to the instance that the first call stored. -/
theorem fetchPluginSchemas_overlap_replaces_instance :
    overlapFirstStarted.2.pluginSchemasCache = none ∧
    overlapFirstResolved.1
      = .resolved { id := 2, entries := [(.str "key-auth", some (.obj [("key_names", .obj [])]))] } ∧
    overlapSecondResolved.1
      = .resolved { id := 3, entries := [(.str "key-auth", some (.obj [("key_names", .obj [])]))] } ∧
    overlapLaterCall.1
      = .resolved { id := 3, entries := [(.str "key-auth", some (.obj [("key_names", .obj [])]))] } ∧
    overlapLaterCall.2.calls = overlapSecondResolved.2.calls ∧
    overlapLaterCall.1 ≠ overlapFirstResolved.1 := by
  have h1 : overlapFirstResolved.1
      = .resolved { id := 2, entries := [(.str "key-auth", some (.obj [("key_names", .obj [])]))] } :=
    rfl
  have h2 : overlapLaterCall.1
      = .resolved { id := 3, entries := [(.str "key-auth", some (.obj [("key_names", .obj [])]))] } :=
    rfl
  refine ⟨rfl, h1, rfl, h2, rfl, ?_⟩
  rw [h1, h2]
  intro h
  simp at h

/-- C9, amended: after one `fetchPluginSchemas` call has resolved, every later
`fetchPluginSchemas` call of a sequence in which each call is made after the
previous one has settled (no other population is in flight) resolves to the
identical mapping instance that the first call returned and stored, issues no
transport call and leaves the module as it was. -/
theorem fetchPluginSchemas_returns_cached_instance (cfg : Config) (get : Transport)
    (fuel : Nat) (w : World) (m : SchemaMap) (later : List SchemaCall)
    (h : (fetchPluginSchemas cfg get fuel w).1 = .resolved m) :
    (fetchPluginSchemas cfg get fuel w).2.pluginSchemasCache = some m ∧
    runFetchPluginSchemas later (fetchPluginSchemas cfg get fuel w).2
      = (later.map fun _ => .resolved m, (fetchPluginSchemas cfg get fuel w).2) ∧
    (runFetchPluginSchemas later (fetchPluginSchemas cfg get fuel w).2).2.calls
      = (fetchPluginSchemas cfg get fuel w).2.calls := by
  have hstored := fetchPluginSchemas_resolved_stores cfg get fuel w m h
  have hrun := runFetchPluginSchemas_hit later _ m hstored
  exact ⟨hstored, hrun, by rw [hrun]⟩

/-- Two calls after a first resolved call on `pluginServer` both resolve to
the map with identity 1, which the first call built, with no further transport call. -/
theorem fetchPluginSchemas_returns_cached_instance_witness :
    (fetchPluginSchemas demoConfig pluginServer 3 World.initial).1
      = .resolved { id := 1, entries := [(.str "key-auth", some (.obj [("key_names", .obj [])]))] } ∧
    (runFetchPluginSchemas [⟨demoConfig, pluginServer, 3⟩, ⟨demoConfig, unreachable, 0⟩]
        (fetchPluginSchemas demoConfig pluginServer 3 World.initial).2).1
      = [.resolved { id := 1, entries := [(.str "key-auth", some (.obj [("key_names", .obj [])]))] },
         .resolved { id := 1, entries := [(.str "key-auth", some (.obj [("key_names", .obj [])]))] }] ∧
    (runFetchPluginSchemas [⟨demoConfig, pluginServer, 3⟩, ⟨demoConfig, unreachable, 0⟩]
        (fetchPluginSchemas demoConfig pluginServer 3 World.initial).2).2.calls
      = [(.str "/plugins/enabled", none), (.str "/plugins/schema/key-auth", none)] :=
  have h := fetchPluginSchemas_returns_cached_instance demoConfig pluginServer 3 World.initial
    { id := 1, entries := [(.str "key-auth", some (.obj [("key_names", .obj [])]))] }
    [⟨demoConfig, pluginServer, 3⟩, ⟨demoConfig, unreachable, 0⟩] rfl
  ⟨rfl, by rw [h.2.1]; rfl, by rw [h.2.2]; rfl⟩

/-- C10: starting from an empty plugin schema cache, whatever the list of
enabled plugins, if the enabled-plugins fetch or the schema fetch of at least
one enabled plugin rejects, `fetchPluginSchemas` rejects with such a failure
and leaves the plugin schema cache empty, so that a later call goes through
the population again. -/
theorem fetchPluginSchemas_failure_caches_nothing (cfg : Config) (get : Transport)
    (fuel : Nat) (w : World) (e : Err)
    (hempty : w.pluginSchemasCache = none)
    (hfail : SchemaFetchFails cfg get fuel w e) :
    (∃ e', (fetchPluginSchemas cfg get fuel w).1 = .rejected e' ∧
      SchemaFetchFails cfg get fuel w e') ∧
    (fetchPluginSchemas cfg get fuel w).2.pluginSchemasCache = none ∧
    ∀ (cfg' : Config) (get' : Transport) (fuel' : Nat),
      fetchPluginSchemas cfg' get' fuel' (fetchPluginSchemas cfg get fuel w).2
        = storeSchemas
            (fetchSchemaPairs cfg' get' fuel' (fetchPluginSchemas cfg get fuel w).2).1
            (fetchSchemaPairs cfg' get' fuel' (fetchPluginSchemas cfg get fuel w).2).2 := by
  obtain ⟨e', hpairs, hfails'⟩ := fetchSchemaPairs_fails cfg get fuel w e hfail
  have hcall : fetchPluginSchemas cfg get fuel w
      = (.rejected e', (fetchSchemaPairs cfg get fuel w).2) := by
    rw [fetchPluginSchemas_miss cfg get fuel w hempty, hpairs]
    rfl
  have hcache : (fetchPluginSchemas cfg get fuel w).2.pluginSchemasCache = none := by
    rw [hcall]
    exact (fetchSchemaPairs_keeps_schemas cfg get fuel w).trans hempty
  refine ⟨⟨e', by rw [hcall], hfails'⟩, hcache, ?_⟩
  intro cfg' get' fuel'
  exact fetchPluginSchemas_miss cfg' get' fuel' _ hcache

/-- On `brokenSchemaServer` two plugins are enabled and the schema of `acl`
answers 500: the call rejects with that HTTP error, after issuing all three
fetches, and nothing is cached. -/
theorem fetchPluginSchemas_failure_caches_nothing_witness :
    World.initial.pluginSchemasCache = none ∧
    SchemaFetchFails demoConfig brokenSchemaServer 3 World.initial
      (.http (httpMessage (.str "/plugins/schema/acl") ⟨false, 500, "Internal Server Error", none⟩)
        ⟨false, 500, "Internal Server Error", none⟩) ∧
    (fetchPluginSchemas demoConfig brokenSchemaServer 3 World.initial).1
      = .rejected (.http
          (httpMessage (.str "/plugins/schema/acl") ⟨false, 500, "Internal Server Error", none⟩)
          ⟨false, 500, "Internal Server Error", none⟩) ∧
    (fetchPluginSchemas demoConfig brokenSchemaServer 3 World.initial).2.calls
      = [(.str "/plugins/enabled", none), (.str "/plugins/schema/key-auth", none),
         (.str "/plugins/schema/acl", none)] ∧
    (fetchPluginSchemas demoConfig brokenSchemaServer 3 World.initial).2.pluginSchemasCache
      = none :=
  have hfail : SchemaFetchFails demoConfig brokenSchemaServer 3 World.initial
      (.http (httpMessage (.str "/plugins/schema/acl") ⟨false, 500, "Internal Server Error", none⟩)
        ⟨false, 500, "Internal Server Error", none⟩) :=
    Or.inr ⟨.obj [("enabled_plugins", .arr [.str "key-auth", .str "acl"])],
      some (.arr [.str "key-auth", .str "acl"]), [.str "key-auth", .str "acl"],
      rfl, rfl, rfl, .str "acl", by simp, rfl⟩
  ⟨rfl, hfail, rfl, rfl,
    (fetchPluginSchemas_failure_caches_nothing demoConfig brokenSchemaServer 3 World.initial
      _ rfl hfail).2.1⟩

/-! ## Plugin schema mapping: results -/

theorem get_ok_of_ne_null (json : Json) (key : String) (h : json ≠ .null) :
    ∃ value, json.get key = .ok value := by
  cases json with
  | null => exact absurd rfl h
  | bool b => exact ⟨_, rfl⟩
  | num n => exact ⟨_, rfl⟩
  | str s => exact ⟨_, rfl⟩
  | arr xs => exact ⟨_, rfl⟩
  | obj kv => exact ⟨_, rfl⟩

theorem ne_null_of_get_ok (json : Json) (key : String) (value : Option Json)
    (h : json.get key = .ok value) : json ≠ .null := by
  rintro rfl
  simp [Json.get] at h

theorem ne_null_of_truthy (json : Json) (h : json.truthy = true) : json ≠ .null := by
  rintro rfl
  simp [Json.truthy] at h

theorem concat_ne_null (data more all : Json) (h : concat data more = .ok all) :
    all ≠ .null := by
  rintro rfl
  cases data <;> simp [concat] at h
  rename_i xs
  cases more <;> simp at h

theorem thenConcat_resolved_ne_null (data : Json) (call : Call)
    (rest : Settled Json × List Call) (v : Json)
    (h : (thenConcat data call rest).1 = .resolved v) : v ≠ .null := by
  obtain ⟨out, calls⟩ := rest
  cases out with
  | resolved more =>
    simp only [thenConcat] at h
    cases hc : concat data more with
    | ok all =>
      rw [hc] at h
      simp only [Settled.resolved.injEq] at h
      subst h
      exact concat_ne_null data more all hc
    | error e => rw [hc] at h; simp at h
  | rejected e => simp [thenConcat] at h
  | pending => simp [thenConcat] at h

/-- A walk never resolves to `null`. -/
theorem walk_resolved_ne_null (get : Transport) (fuel : Nat) (uri : Json)
    (pageSize : Option Int) (v : Json)
    (h : (getPaginatedJson get fuel uri pageSize).1 = .resolved v) : v ≠ .null := by
  cases fuel with
  | zero => simp [getPaginatedJson] at h
  | succ fuel =>
    unfold getPaginatedJson at h
    repeat' split at h
    all_goals first
      | exact thenConcat_resolved_ne_null _ _ _ v h
      | (simp only [Settled.resolved.injEq] at h
         subst h
         intro hnull
         subst hnull
         simp_all [Json.truthy, Json.get])
      | simp at h

theorem sameValueZero_eq (a b : Json) (h : sameValueZero a b = true) : a = b := by
  cases a <;> cases b <;> simp [sameValueZero] at h <;> simp [h]

theorem mapSet_cons_same (k0 : Json) (v0 : Option Json) (rest : List (Json × Option Json))
    (k : Json) (v : Option Json) (h : sameValueZero k0 k = true) :
    mapSet ((k0, v0) :: rest) k v = (k0, v) :: rest := by
  simp [mapSet, h]

theorem mapSet_cons_other (k0 : Json) (v0 : Option Json) (rest : List (Json × Option Json))
    (k : Json) (v : Option Json) (h : sameValueZero k0 k = false) :
    mapSet ((k0, v0) :: rest) k v = (k0, v0) :: mapSet rest k v := by
  simp [mapSet, h]

theorem mapSet_mem (m : List (Json × Option Json)) (k : Json) (v : Option Json)
    (e : Json × Option Json) : e ∈ mapSet m k v → e ∈ m ∨ e = (k, v) := by
  induction m with
  | nil =>
    intro h
    exact Or.inr (List.mem_singleton.mp h)
  | cons head rest ih =>
    obtain ⟨k0, v0⟩ := head
    intro h
    cases hs : sameValueZero k0 k with
    | true =>
      rw [mapSet_cons_same k0 v0 rest k v hs] at h
      rcases List.mem_cons.mp h with h1 | h1
      · exact Or.inr (h1.trans (by rw [sameValueZero_eq k0 k hs]))
      · exact Or.inl (List.mem_cons_of_mem _ h1)
    | false =>
      rw [mapSet_cons_other k0 v0 rest k v hs] at h
      rcases List.mem_cons.mp h with h1 | h1
      · exact Or.inl (h1 ▸ List.mem_cons_self _ _)
      · rcases ih h1 with h2 | h2
        · exact Or.inl (List.mem_cons_of_mem _ h2)
        · exact Or.inr h2

theorem mapSet_keys (m : List (Json × Option Json)) (k : Json) (v : Option Json) (key : Json) :
    key ∈ (mapSet m k v).map Prod.fst ↔ key ∈ m.map Prod.fst ∨ key = k := by
  induction m with
  | nil => simp [mapSet]
  | cons head rest ih =>
    obtain ⟨k0, v0⟩ := head
    cases hs : sameValueZero k0 k with
    | true =>
      have hk := sameValueZero_eq k0 k hs
      rw [mapSet_cons_same k0 v0 rest k v hs]
      simp only [List.map_cons, List.mem_cons]
      constructor
      · intro h; exact Or.inl h
      · rintro (h | h)
        · exact h
        · exact Or.inl (by rw [h, hk])
    | false =>
      rw [mapSet_cons_other k0 v0 rest k v hs]
      simp only [List.map_cons, List.mem_cons, ih]
      tauto

theorem mapSet_fresh (m : List (Json × Option Json)) (k : Json) (v : Option Json)
    (h : ∀ e ∈ m, sameValueZero e.1 k = false) : mapSet m k v = m ++ [(k, v)] := by
  induction m with
  | nil => rfl
  | cons head rest ih =>
    obtain ⟨k0, v0⟩ := head
    have hh : sameValueZero k0 k = false := h (k0, v0) (List.mem_cons_self _ _)
    rw [mapSet_cons_other k0 v0 rest k v hh,
      ih (fun e he => h e (List.mem_cons_of_mem _ he))]
    rfl

theorem foldl_mapSet_mem (all acc : List (Json × Option Json)) (e : Json × Option Json)
    (h : e ∈ all.foldl (fun m e => mapSet m e.1 e.2) acc) : e ∈ acc ∨ e ∈ all := by
  induction all generalizing acc with
  | nil => exact Or.inl h
  | cons head rest ih =>
    rcases ih _ h with h | h
    · rcases mapSet_mem acc head.1 head.2 e h with h | h
      · exact Or.inl h
      · exact Or.inr (by rw [h]; exact List.mem_cons_self _ _)
    · exact Or.inr (List.mem_cons_of_mem _ h)

theorem foldl_mapSet_keys (all acc : List (Json × Option Json)) (key : Json) :
    key ∈ (all.foldl (fun m e => mapSet m e.1 e.2) acc).map Prod.fst
      ↔ key ∈ acc.map Prod.fst ∨ key ∈ all.map Prod.fst := by
  induction all generalizing acc with
  | nil => simp
  | cons head rest ih =>
    simp only [List.foldl_cons, ih, mapSet_keys, List.map_cons, List.mem_cons]
    tauto

theorem foldl_mapSet_distinct (all acc : List (Json × Option Json))
    (hacc : ∀ a ∈ acc, ∀ e ∈ all, sameValueZero a.1 e.1 = false)
    (hall : all.Pairwise fun a b => sameValueZero a.1 b.1 = false) :
    all.foldl (fun m e => mapSet m e.1 e.2) acc = acc ++ all := by
  induction all generalizing acc with
  | nil => simp
  | cons head rest ih =>
    rw [List.pairwise_cons] at hall
    simp only [List.foldl_cons]
    rw [mapSet_fresh acc head.1 head.2 (fun a ha => hacc a ha head (List.mem_cons_self _ _))]
    rw [ih _ ?_ hall.2]
    · simp
    · intro a ha e he
      rw [List.mem_append] at ha
      rcases ha with ha | ha
      · exact hacc a ha e (List.mem_cons_of_mem _ he)
      · simp only [List.mem_singleton] at ha
        rw [ha]
        exact hall.1 e he

theorem mapEntries_mem (all : List (Json × Option Json)) (e : Json × Option Json)
    (h : e ∈ mapEntries all) : e ∈ all := by
  rcases foldl_mapSet_mem all [] e h with h | h
  · simp at h
  · exact h

theorem mapEntries_keys (all : List (Json × Option Json)) (key : Json) :
    key ∈ (mapEntries all).map Prod.fst ↔ key ∈ all.map Prod.fst := by
  unfold mapEntries
  rw [foldl_mapSet_keys]
  simp

theorem mapEntries_distinct (all : List (Json × Option Json))
    (h : all.Pairwise fun a b => sameValueZero a.1 b.1 = false) : mapEntries all = all := by
  simpa [mapEntries] using foldl_mapSet_distinct all [] (by simp) h

theorem firstRejection_map_resolved {α β : Type} (l : List β) (f : β → Settled α)
    (g : β → α) (h : ∀ x ∈ l, f x = .resolved (g x)) :
    firstRejection (l.map f) = none ∧ allResolved (l.map f) = some (l.map g) := by
  induction l with
  | nil => exact ⟨rfl, rfl⟩
  | cons x rest ih =>
    obtain ⟨h1, h2⟩ := ih (fun y hy => h y (List.mem_cons_of_mem _ hy))
    have hx := h x (List.mem_cons_self _ _)
    simp only [List.map_cons, hx, firstRejection, allResolved, h1, h2, Option.map_some']
    exact ⟨trivial, trivial⟩

theorem getPluginScheme_resolved (get : Transport) (fuel : Nat) (plugin : Json)
    (route : Json → String) (schema : Json) (fields : Option Json)
    (hwalk : (getPaginatedJson get fuel (.str (route plugin)) none).1 = .resolved schema)
    (hfields : schema.get "fields" = .ok fields) :
    (getPluginScheme get fuel plugin route).1 = .resolved (plugin, fields) := by
  unfold getPluginScheme
  cases hw : getPaginatedJson get fuel (.str (route plugin)) none with
  | mk out calls =>
    rw [hw] at hwalk
    simp only at hwalk
    subst hwalk
    simp [hfields]

/-- The `fields` property of a document, `undefined` when the read throws. -/
theorem fieldsOf_spec (schema : Json) (h : schema ≠ .null) :
    schema.get "fields" = .ok (fieldsOf schema) := by
  obtain ⟨value, hv⟩ := get_ok_of_ne_null schema "fields" h
  simp [fieldsOf, hv]


theorem fetchSchemaPairs_resolved (cfg : Config) (get : Transport) (fuel : Nat) (w : World)
    (json : Json) (enabledPlugins : Option Json) (names : List Json) (schemaOf : Json → Json)
    (henabled : (cfg.getPaginatedJson get fuel
        (cfg.router { name := "plugins-enabled", params := [] }) cfg.pageSize w).1.settled
      = .resolved json)
    (hfield : json.get "enabled_plugins" = .ok enabledPlugins)
    (hnames : getEnabledPluginNames enabledPlugins = .ok names)
    (hschemas : ∀ plugin ∈ names,
      (getPaginatedJson get fuel (.str (schemaRoute cfg plugin)) none).1
        = .resolved (schemaOf plugin)) :
    (fetchSchemaPairs cfg get fuel w).1
      = .resolved (names.map fun n => (n, fieldsOf (schemaOf n))) := by
  have hall := firstRejection_map_resolved names
    (fun plugin => (getPluginScheme get fuel plugin (schemaRoute cfg)).1)
    (fun n => (n, fieldsOf (schemaOf n)))
    (fun plugin hp => getPluginScheme_resolved get fuel plugin (schemaRoute cfg)
      (schemaOf plugin) _ (hschemas plugin hp)
      (fieldsOf_spec _ (walk_resolved_ne_null get fuel _ none _ (hschemas plugin hp))))
  have hmap : (names.map fun plugin => getPluginScheme get fuel plugin (schemaRoute cfg)).map
      Prod.fst
      = names.map fun plugin => (getPluginScheme get fuel plugin (schemaRoute cfg)).1 := by
    rw [List.map_map]
    rfl
  simp only [fetchSchemaPairs, henabled, hfield, hnames, promiseAll, hmap, hall.1, hall.2]

/-! ## Claims about the plugin schema mapping -/

/-- C11: starting from an empty plugin schema cache and with every fetch
succeeding, `fetchPluginSchemas` resolves to, and caches, a mapping whose keys
are exactly the enabled plugin names, the names being the elements of
`enabled_plugins` in order when it is an array and its own keys when it is an
object, and in which every name is mapped to the `fields` value of the
document its schema fetch resolved to; when the names are pairwise different
the entries follow the order of the names. -/
theorem fetchPluginSchemas_maps_names_to_fields (cfg : Config) (get : Transport) (fuel : Nat)
    (w : World) (json enabledPlugins : Json) (names : List Json) (schemaOf : Json → Json)
    (hempty : w.pluginSchemasCache = none)
    (henabled : (cfg.getPaginatedJson get fuel
        (cfg.router { name := "plugins-enabled", params := [] }) cfg.pageSize w).1.settled
      = .resolved json)
    (hfield : json.get "enabled_plugins" = .ok (some enabledPlugins))
    (hnames : enabledPlugins = .arr names ∨
      ∃ kv, enabledPlugins = .obj kv ∧ names = kv.map fun e => .str e.1)
    (hschemas : ∀ plugin ∈ names,
      (getPaginatedJson get fuel (.str (schemaRoute cfg plugin)) none).1
        = .resolved (schemaOf plugin)) :
    ∃ m, (fetchPluginSchemas cfg get fuel w).1 = .resolved m ∧
      (fetchPluginSchemas cfg get fuel w).2.pluginSchemasCache = some m ∧
      (∀ key, key ∈ m.entries.map Prod.fst ↔ key ∈ names) ∧
      (∀ key value, (key, value) ∈ m.entries →
        key ∈ names ∧ (schemaOf key).get "fields" = .ok value) ∧
      (names.Pairwise (fun a b => sameValueZero a b = false) →
        m.entries = names.map fun n => (n, fieldsOf (schemaOf n))) := by
  have hkeys : getEnabledPluginNames (some enabledPlugins) = .ok names := by
    rcases hnames with h | ⟨kv, h, hk⟩
    · rw [h]; rfl
    · rw [h, hk]; rfl
  have hpairs := fetchSchemaPairs_resolved cfg get fuel w json (some enabledPlugins) names
    schemaOf henabled hfield hkeys hschemas
  have hcall : fetchPluginSchemas cfg get fuel w
      = storeSchemas (.resolved (names.map fun n => (n, fieldsOf (schemaOf n))))
          (fetchSchemaPairs cfg get fuel w).2 := by
    rw [fetchPluginSchemas_miss cfg get fuel w hempty, hpairs]
  refine ⟨{ id := (fetchSchemaPairs cfg get fuel w).2.nextId,
            entries := mapEntries (names.map fun n => (n, fieldsOf (schemaOf n))) },
    by rw [hcall]; rfl, by rw [hcall]; rfl, ?_, ?_, ?_⟩
  · intro key
    show key ∈ (mapEntries _).map Prod.fst ↔ _
    rw [mapEntries_keys, List.map_map]
    simp [Function.comp]
  · intro key value hmem
    have hin := mapEntries_mem _ _ hmem
    rw [List.mem_map] at hin
    obtain ⟨n, hn, hpair⟩ := hin
    simp only [Prod.mk.injEq] at hpair
    obtain ⟨hk, hv⟩ := hpair
    subst hk
    refine ⟨hn, ?_⟩
    rw [← hv]
    exact fieldsOf_spec _ (walk_resolved_ne_null get fuel _ none _ (hschemas n hn))
  · intro hdistinct
    show mapEntries _ = _
    apply mapEntries_distinct
    rw [List.pairwise_map]
    exact hdistinct

/-- On `pluginMapServer` the enabled plugins are the keys `key-auth` and
`acl` of an object; the call resolves to the map of the two names to the
`fields` of their schemas. -/
theorem fetchPluginSchemas_maps_names_to_fields_witness :
    World.initial.pluginSchemasCache = none ∧
    (fetchPluginSchemas demoConfig pluginMapServer 3 World.initial).1
      = .resolved { id := 1, entries :=
          [(.str "key-auth", some (.obj [("key_names", .obj [])])),
           (.str "acl", some (.obj [("whitelist", .obj [])]))] } ∧
    ∃ m, (fetchPluginSchemas demoConfig pluginMapServer 3 World.initial).1 = .resolved m ∧
      (fetchPluginSchemas demoConfig pluginMapServer 3 World.initial).2.pluginSchemasCache
        = some m ∧
      (∀ key, key ∈ m.entries.map Prod.fst ↔ key ∈ [Json.str "key-auth", Json.str "acl"]) :=
  have h := fetchPluginSchemas_maps_names_to_fields demoConfig pluginMapServer 3 World.initial
    (.obj [("enabled_plugins", .obj [("key-auth", .bool true), ("acl", .bool true)])])
    (.obj [("key-auth", .bool true), ("acl", .bool true)])
    [.str "key-auth", .str "acl"]
    (fun plugin =>
      match plugin with
      | .str "key-auth" => .obj [("fields", .obj [("key_names", .obj [])])]
      | _ => .obj [("fields", .obj [("whitelist", .obj [])])])
    rfl rfl rfl (Or.inr ⟨_, rfl, rfl⟩)
    (by
      intro plugin hp
      simp only [List.mem_cons, List.mem_singleton, List.not_mem_nil, or_false] at hp
      rcases hp with rfl | rfl <;> rfl)
  ⟨rfl, rfl, h.elim fun m hm => ⟨m, hm.1, hm.2.1, hm.2.2.1⟩⟩


/-! ## Claims about the resource API and the mutation options -/

/-- C12: when the API is created with `ignoreConsumers` set, `fetchConsumers`
resolves to an empty collection whatever the state of the caches and whether
caching is enabled or not; the transport log, the request log and the three
caches are left as they were, and the outcome is the same for every router and
every transport, neither of which is consulted. -/
theorem fetchConsumers_ignored (cfg : Config) (get : Transport) (fuel : Nat) (w : World)
    (h : cfg.ignoreConsumers = true) :
    (fetchConsumers cfg get fuel w).1.settled = .resolved (.arr []) ∧
    (fetchConsumers cfg get fuel w).2.calls = w.calls ∧
    (fetchConsumers cfg get fuel w).2.requests = w.requests ∧
    (fetchConsumers cfg get fuel w).2.resultsCache = w.resultsCache ∧
    (fetchConsumers cfg get fuel w).2.pluginSchemasCache = w.pluginSchemasCache ∧
    (fetchConsumers cfg get fuel w).2.kongVersionCache = w.kongVersionCache ∧
    ∀ (router : Endpoint → String) (cache : Bool) (pageSize : Option Int)
      (otherGet : Transport) (otherFuel : Nat),
      fetchConsumers
          { router := router, ignoreConsumers := true, cache := cache, pageSize := pageSize }
          otherGet otherFuel w
        = fetchConsumers cfg get fuel w := by
  have hcall : fetchConsumers cfg get fuel w
      = ({ id := w.nextId, settled := .resolved (.arr []) },
          { w with nextId := w.nextId + 1 }) := by
    unfold fetchConsumers
    rw [if_pos h]
  refine ⟨by rw [hcall], by rw [hcall], by rw [hcall], by rw [hcall], by rw [hcall],
    by rw [hcall], ?_⟩
  intro router cache pageSize otherGet otherFuel
  rw [hcall]
  rfl

/-- With `ignoreConsumers` and caching set, `fetchConsumers` resolves to `[]`
even when the server cannot be reached, and no transport call is recorded. -/
theorem fetchConsumers_ignored_witness :
    ignoringConfig.ignoreConsumers = true ∧
    (fetchConsumers ignoringConfig unreachable 3 World.initial).1.settled
      = .resolved (.arr []) ∧
    (fetchConsumers ignoringConfig unreachable 3 World.initial).2.calls = [] :=
  ⟨rfl, (fetchConsumers_ignored ignoringConfig unreachable 3 World.initial rfl).1,
    (fetchConsumers_ignored ignoringConfig unreachable 3 World.initial rfl).2.1⟩

/-- C13, as stated, fails for a mutation without a body: the options built
for `DELETE` carry `Accept: application/json` only, with no `Content-Type`. -/
theorem prepareOptions_without_body_has_no_content_type :
    (prepareOptions { method := some (.str "DELETE"), body := none }).headers
      = [("Accept", "application/json")] ∧
    ("Content-Type", "application/json")
      ∉ (prepareOptions { method := some (.str "DELETE"), body := none }).headers := by
  refine ⟨rfl, ?_⟩
  show ("Content-Type", "application/json") ∉ [("Accept", "application/json")]
  simp

/-- C13, amended: for every mutation parameters `{method, body?}` the options
built by `prepareOptions` carry `Accept: application/json`; they carry
`Content-Type: application/json` exactly when a truthy body is supplied, and
then the headers are these two, in this order. -/
theorem prepareOptions_headers (params : Params) :
    ("Accept", "application/json") ∈ (prepareOptions params).headers ∧
    (("Content-Type", "application/json") ∈ (prepareOptions params).headers
      ↔ truthy? params.body = true) ∧
    (prepareOptions params).headers
      = if truthy? params.body
        then [("Accept", "application/json"), ("Content-Type", "application/json")]
        else [("Accept", "application/json")] := by
  cases h : truthy? params.body <;> simp [prepareOptions, h]

/-- C14, as stated, fails for a body that is supplied but falsy: with the
body `false` the options have no `body` field, although the JSON
serialization of the body is the text `false`. -/
theorem prepareOptions_drops_falsy_body :
    (prepareOptions { method := some (.str "PATCH"), body := some (.bool false) }).body
      = none ∧
    (prepareOptions { method := some (.str "PATCH"), body := some (.bool false) }).body
      ≠ some (jsonStringify (.bool false)) := by
  refine ⟨rfl, ?_⟩
  show (none : Option String) ≠ _
  simp

/-- C14, amended: for every mutation parameters `{method, body?}` the options
built by `prepareOptions` have `method` equal to the supplied method verbatim;
when a truthy body is supplied the options' `body` is the JSON serialization
of that body; when no body or a falsy body (`null`, `false`, `0`, `""`) is
supplied the options have no `body` field. -/
theorem prepareOptions_method_and_body (params : Params) :
    (prepareOptions params).method = params.method ∧
    (∀ body, params.body = some body → body.truthy = true →
      (prepareOptions params).body = some (jsonStringify body)) ∧
    (truthy? params.body = false → (prepareOptions params).body = none) := by
  refine ⟨?_, ?_, ?_⟩
  · cases h : truthy? params.body <;> simp [prepareOptions, h]
  · intro body hb ht
    simp [prepareOptions, hb, truthy?, ht]
  · intro h
    simp [prepareOptions, h]

/-- A `PUT` with the body `[1]`: the method passes through and the body is
the serialization of `[1]`. -/
theorem prepareOptions_method_and_body_witness :
    (prepareOptions { method := some (.str "PUT"), body := some (.arr [.num 1]) }).method
      = some (.str "PUT") ∧
    (prepareOptions { method := some (.str "PUT"), body := some (.arr [.num 1]) }).body
      = some (jsonStringify (.arr [.num 1])) ∧
    (prepareOptions { method := some (.str "DELETE"), body := none }).body = none :=
  ⟨(prepareOptions_method_and_body
      { method := some (.str "PUT"), body := some (.arr [.num 1]) }).1,
    (prepareOptions_method_and_body
      { method := some (.str "PUT"), body := some (.arr [.num 1]) }).2.1 _ rfl rfl,
    (prepareOptions_method_and_body { method := some (.str "DELETE"), body := none }).2.2 rfl⟩


/-! ## Termination and continuation: results -/

theorem thenConcat_pending (data : Json) (call : Call) (rest : Settled Json × List Call) :
    (thenConcat data call rest).1 = .pending ↔ rest.1 = .pending := by
  obtain ⟨out, calls⟩ := rest
  cases out with
  | resolved more =>
    simp only [thenConcat]
    split <;> simp
  | rejected e => simp [thenConcat]
  | pending => simp [thenConcat]

theorem settled_of_ne_pending {α : Type} (s : Settled α) (h : s ≠ .pending) :
    (∃ v, s = .resolved v) ∨ ∃ e, s = .rejected e := by
  cases s with
  | resolved v => exact Or.inl ⟨v, rfl⟩
  | rejected e => exact Or.inr ⟨e, rfl⟩
  | pending => exact absurd rfl h

theorem nextLink_of_serves (get : Transport) (uri : Json) (pageSize : Option Int)
    (json next : Json) (hs : Serves get uri pageSize json)
    (hnext : json.get "next" = .ok (some next)) (htruthy : next.truthy = true) :
    nextLink get uri pageSize = some next := by
  obtain ⟨r, hget, hok, hjson⟩ := hs
  simp [nextLink, hget, hok, hjson, hnext, htruthy]

/-- The walk follows `next` when the page is served successfully with a
`data` array that is not shorter than the page size and a truthy `next`. -/
theorem walk_follow (get : Transport) (fuel : Nat) (uri : Json) (pageSize : Option Int)
    (json next : Json) (items : List Json) (hs : Serves get uri pageSize json)
    (hdata : json.get "data" = .ok (some (.arr items)))
    (hnext : json.get "next" = .ok (some next)) (htruthy : next.truthy = true)
    (hfull : ¬ ((items.length : Int) < pageSize.getD 0)) :
    getPaginatedJson get (fuel + 1) uri pageSize
      = thenConcat (.arr items) (uri, pageSize) (getPaginatedJson get fuel next none) := by
  obtain ⟨r, hget, hok, hjson⟩ := hs
  simp [getPaginatedJson, hget, hok, hjson, hdata, hnext, htruthy, truthy_arr,
    get_length_arr, lengthBelow_arr, hfull]

theorem walk_settles_within (get : Transport) (n : Nat) :
    ∀ (uri : Json) (pageSize : Option Int) (extra : Nat),
      chainEndsWithin get n uri pageSize = true →
      (getPaginatedJson get (n + extra) uri pageSize).1 ≠ .pending ∧
      (getPaginatedJson get (n + extra) uri pageSize).2.length ≤ n := by
  induction n with
  | zero => intro uri pageSize extra h; simp [chainEndsWithin] at h
  | succ n ih =>
    intro uri pageSize extra h
    have hfuel : n + 1 + extra = (n + extra) + 1 := by omega
    rw [hfuel]
    rcases walk_succ get (n + extra) uri pageSize with
      ⟨r, _, _, hwalk⟩ | ⟨_, out, _, hout, hwalk⟩ |
      ⟨_, json, data, next, length, hs, _, _, hnext, htruthy, _, _, hwalk⟩
    · rw [hwalk]
      exact ⟨by simp, by simp⟩
    · rw [hwalk]
      exact ⟨hout, by simp⟩
    · rw [hwalk]
      have hlink := nextLink_of_serves get uri pageSize json next hs hnext htruthy
      have hrest : chainEndsWithin get n next none = true := by
        simpa [chainEndsWithin, hlink] using h
      obtain ⟨h1, h2⟩ := ih next none extra hrest
      refine ⟨?_, ?_⟩
      · intro hp
        exact h1 ((thenConcat_pending data _ _).mp hp)
      · rw [thenConcat_calls]
        simp only [List.length_cons]
        omega

theorem walk_calls_without_hint (get : Transport) (fuel : Nat) :
    ∀ (uri : Json), ∀ c ∈ (getPaginatedJson get fuel uri none).2, c.2 = none := by
  induction fuel with
  | zero => intro uri c hc; simp [getPaginatedJson] at hc
  | succ fuel ih =>
    intro uri c hc
    rcases walk_succ get fuel uri none with
      ⟨r, _, _, hwalk⟩ | ⟨_, out, _, _, hwalk⟩ |
      ⟨_, json, data, next, length, _, _, _, _, _, _, _, hwalk⟩
    · rw [hwalk] at hc
      simp only [List.mem_singleton] at hc
      rw [hc]
    · rw [hwalk] at hc
      simp only [List.mem_singleton] at hc
      rw [hc]
    · rw [hwalk, thenConcat_calls] at hc
      rcases List.mem_cons.mp hc with h | h
      · rw [h]
      · exact ih next c h

theorem walk_continuations_without_hint (get : Transport) (fuel : Nat) (uri : Json)
    (pageSize : Option Int) :
    ∀ c ∈ (getPaginatedJson get fuel uri pageSize).2.tail, c.2 = none := by
  cases fuel with
  | zero => intro c hc; simp [getPaginatedJson] at hc
  | succ fuel =>
    intro c hc
    rcases walk_succ get fuel uri pageSize with
      ⟨r, _, _, hwalk⟩ | ⟨_, out, _, _, hwalk⟩ |
      ⟨_, json, data, next, length, _, _, _, _, _, _, _, hwalk⟩
    · rw [hwalk] at hc; simp at hc
    · rw [hwalk] at hc; simp at hc
    · rw [hwalk, thenConcat_calls] at hc
      exact walk_calls_without_hint get fuel next c hc

theorem loopServer_second_page (fuel : Nat) :
    getPaginatedJson loopServer fuel (.str "/p2") none
      = (.pending, List.replicate fuel (.str "/p2", none)) := by
  induction fuel with
  | zero => rfl
  | succ fuel ih =>
    rw [walk_follow loopServer fuel (.str "/p2") none
      (.obj [("data", .arr [.num 3]), ("next", .str "/p2")]) (.str "/p2") [.num 3]
      ⟨_, rfl, rfl, rfl⟩ rfl rfl rfl (by decide), ih]
    rfl

/-! ## Claims about termination and continuation pages -/

/-- C15: whenever following `next` links from the start target reaches a page
without a `next` link within `n` pages, `getPaginatedJson` awaited for at
least `n` round trips has settled, resolved or rejected, after at most `n`
transport calls, one per page of the chain at most, for every page size. -/
theorem getPaginatedJson_settles_on_finite_chain (get : Transport) (n extra : Nat)
    (uri : Json) (pageSize : Option Int)
    (h : chainEndsWithin get n uri pageSize = true) :
    ((∃ v, (getPaginatedJson get (n + extra) uri pageSize).1 = .resolved v) ∨
      ∃ e, (getPaginatedJson get (n + extra) uri pageSize).1 = .rejected e) ∧
    (getPaginatedJson get (n + extra) uri pageSize).2.length ≤ n :=
  ⟨settled_of_ne_pending _ (walk_settles_within get n uri pageSize extra h).1,
    (walk_settles_within get n uri pageSize extra h).2⟩

/-- The chain of `twoPages` ends within two pages, and its walk settles after
two transport calls. -/
theorem getPaginatedJson_settles_on_finite_chain_witness :
    chainEndsWithin twoPages 2 (.str "/p1") (some 3) = true ∧
    (getPaginatedJson twoPages (2 + 5) (.str "/p1") (some 3)).2.length ≤ 2 :=
  ⟨rfl, (getPaginatedJson_settles_on_finite_chain twoPages 2 5 (.str "/p1") (some 3) rfl).2⟩

/-- C17: every continuation page is requested with no page size; and a page
requested with no page size (every continuation page, and the first page of
a walk started with `null`) that carries a `data` array of any length, even
empty, and a `next` link is never taken for the last one: the walk fetches
`next`, with no page size, and concatenates. -/
theorem getPaginatedJson_follows_next_without_hint (get : Transport) (fuel : Nat)
    (uri json next : Json) (items : List Json)
    (hs : Serves get uri none json)
    (hdata : json.get "data" = .ok (some (.arr items)))
    (hnext : json.get "next" = .ok (some next)) (htruthy : next.truthy = true) :
    getPaginatedJson get (fuel + 1) uri none
      = thenConcat (.arr items) (uri, none) (getPaginatedJson get fuel next none) ∧
    (∃ rest, (getPaginatedJson get (fuel + 2) uri none).2
      = (uri, none) :: (next, none) :: rest) ∧
    ∀ (start : Json) (pageSize : Option Int) (horizon : Nat),
      ∀ c ∈ (getPaginatedJson get horizon start pageSize).2.tail, c.2 = none := by
  have hfollow : ∀ k, getPaginatedJson get (k + 1) uri none
      = thenConcat (.arr items) (uri, none) (getPaginatedJson get k next none) :=
    fun k => walk_follow get k uri none json next items hs hdata hnext htruthy
      (by simp)
  refine ⟨hfollow fuel, ?_, fun start pageSize horizon =>
    walk_continuations_without_hint get horizon start pageSize⟩
  obtain ⟨rest, hrest⟩ := walk_first_call get fuel next none
  exact ⟨rest, by rw [hfollow (fuel + 1), thenConcat_calls, hrest]⟩

/-- On `emptyMiddlePage` the continuation page `/p2` is empty and links to
`/p3`: the walk started with page size 1 fetches all three pages, the
continuations with no page size, and resolves to `[1,2]`. -/
theorem getPaginatedJson_follows_next_without_hint_witness :
    Serves emptyMiddlePage (.str "/p2") none
      (.obj [("data", .arr []), ("next", .str "/p3")]) ∧
    getPaginatedJson emptyMiddlePage 3 (.str "/p1") (some 1)
      = (.resolved (.arr [.num 1, .num 2]),
          [(.str "/p1", some 1), (.str "/p2", none), (.str "/p3", none)]) ∧
    ∃ rest, (getPaginatedJson emptyMiddlePage (0 + 2) (.str "/p2") none).2
      = (.str "/p2", none) :: (.str "/p3", none) :: rest :=
  ⟨⟨_, rfl, rfl, rfl⟩, rfl,
    (getPaginatedJson_follows_next_without_hint emptyMiddlePage 0 (.str "/p2")
      (.obj [("data", .arr []), ("next", .str "/p3")]) (.str "/p3") []
      ⟨_, rfl, rfl, rfl⟩ rfl rfl rfl).2.1⟩

/-- C18: the short-page guard does not make the walk total.  On `loopServer`,
whose first page is successful and full for page size 2 and links to a page
with `data` and a `next` link to itself, `getPaginatedJson` started with page
size 2 has not settled after any number of round trips, and has by then
issued as many transport calls as round trips were awaited. -/
theorem getPaginatedJson_loops_forever :
    Serves loopServer (.str "/p1") (some 2)
      (.obj [("data", .arr [.num 1, .num 2]), ("next", .str "/p2")]) ∧
    Serves loopServer (.str "/p2") none
      (.obj [("data", .arr [.num 3]), ("next", .str "/p2")]) ∧
    ∀ fuel : Nat,
      (getPaginatedJson loopServer fuel (.str "/p1") (some 2)).1 = .pending ∧
      (getPaginatedJson loopServer fuel (.str "/p1") (some 2)).2.length = fuel := by
  refine ⟨⟨_, rfl, rfl, rfl⟩, ⟨_, rfl, rfl, rfl⟩, ?_⟩
  intro fuel
  cases fuel with
  | zero => exact ⟨rfl, rfl⟩
  | succ fuel =>
    rw [walk_follow loopServer fuel (.str "/p1") (some 2)
      (.obj [("data", .arr [.num 1, .num 2]), ("next", .str "/p2")]) (.str "/p2")
      [.num 1, .num 2] ⟨_, rfl, rfl, rfl⟩ rfl rfl rfl (by decide),
      loopServer_second_page fuel]
    exact ⟨rfl, by simp [thenConcat]⟩


/-! ## Permanent caches: results -/

theorem read_keeps_permanent_caches (cfg : Config) (get : Transport) (fuel : Nat)
    (uri : String) (pageSize : Option Int) (w : World) :
    (cfg.getPaginatedJson get fuel uri pageSize w).2.pluginSchemasCache = w.pluginSchemasCache ∧
    (cfg.getPaginatedJson get fuel uri pageSize w).2.kongVersionCache = w.kongVersionCache := by
  simp only [Config.getPaginatedJson, getPaginatedJsonCache, callGetPaginatedJson]
  repeat' split
  all_goals exact ⟨rfl, rfl⟩

theorem fetchConsumers_keeps_permanent_caches (cfg : Config) (get : Transport) (fuel : Nat)
    (w : World) :
    (fetchConsumers cfg get fuel w).2.pluginSchemasCache = w.pluginSchemasCache ∧
    (fetchConsumers cfg get fuel w).2.kongVersionCache = w.kongVersionCache := by
  unfold fetchConsumers
  split
  · exact ⟨rfl, rfl⟩
  · exact read_keeps_permanent_caches cfg get fuel _ _ w

theorem fetchKongVersion_hit (parseVersion : VersionReader) (cfg : Config) (get : Transport)
    (fuel : Nat) (w : World) (v : Json) (h : w.kongVersionCache = some v)
    (ht : v.truthy = true) :
    fetchKongVersion parseVersion cfg get fuel w = (.resolved (some v), w) := by
  simp [fetchKongVersion, h, truthy?, ht]

theorem step_keeps_permanent_caches (parseVersion : VersionReader) (s : Step) (w : World)
    (m : SchemaMap) (v : Json) (hm : w.pluginSchemasCache = some m)
    (hv : w.kongVersionCache = some v) (ht : v.truthy = true) :
    (s.run parseVersion w).pluginSchemasCache = some m ∧
    (s.run parseVersion w).kongVersionCache = some v := by
  obtain ⟨cfg, get, request, fuel, operation⟩ := s
  cases operation with
  | fetchApis =>
    have h := read_keeps_permanent_caches cfg get fuel
      (cfg.router { name := "apis", params := [] }) cfg.pageSize w
    exact ⟨h.1.trans hm, h.2.trans hv⟩
  | fetchGlobalPlugins =>
    have h := read_keeps_permanent_caches cfg get fuel
      (cfg.router { name := "plugins", params := [] }) cfg.pageSize w
    exact ⟨h.1.trans hm, h.2.trans hv⟩
  | fetchPlugins apiId =>
    have h := read_keeps_permanent_caches cfg get fuel
      (cfg.router { name := "api-plugins", params := [("apiId", apiId)] }) cfg.pageSize w
    exact ⟨h.1.trans hm, h.2.trans hv⟩
  | fetchConsumers =>
    have h := fetchConsumers_keeps_permanent_caches cfg get fuel w
    exact ⟨h.1.trans hm, h.2.trans hv⟩
  | fetchConsumerCredentials consumerId plugin =>
    have h := read_keeps_permanent_caches cfg get fuel
      (cfg.router { name := "consumer-credentials",
                    params := [("consumerId", consumerId), ("plugin", plugin)] })
      cfg.pageSize w
    exact ⟨h.1.trans hm, h.2.trans hv⟩
  | fetchConsumerAcls consumerId =>
    have h := read_keeps_permanent_caches cfg get fuel
      (cfg.router { name := "consumer-acls", params := [("consumerId", consumerId)] })
      cfg.pageSize w
    exact ⟨h.1.trans hm, h.2.trans hv⟩
  | fetchUpstreams =>
    have h := read_keeps_permanent_caches cfg get fuel
      (cfg.router { name := "upstreams", params := [] }) cfg.pageSize w
    exact ⟨h.1.trans hm, h.2.trans hv⟩
  | fetchTargets upstreamId =>
    have h := read_keeps_permanent_caches cfg get fuel
      (cfg.router { name := "upstream-targets-active", params := [("upstreamId", upstreamId)] })
      cfg.pageSize w
    exact ⟨h.1.trans hm, h.2.trans hv⟩
  | fetchPluginSchemas =>
    show (fetchPluginSchemas cfg get fuel w).2.pluginSchemasCache = some m ∧
      (fetchPluginSchemas cfg get fuel w).2.kongVersionCache = some v
    rw [fetchPluginSchemas_hit cfg get fuel w m hm]
    exact ⟨hm, hv⟩
  | fetchKongVersion =>
    show (fetchKongVersion parseVersion cfg get fuel w).2.pluginSchemasCache = some m ∧
      (fetchKongVersion parseVersion cfg get fuel w).2.kongVersionCache = some v
    rw [fetchKongVersion_hit parseVersion cfg get fuel w v hv ht]
    exact ⟨hm, hv⟩
  | requestEndpoint endpoint params => exact ⟨hm, hv⟩

theorem runSteps_keeps_permanent_caches (parseVersion : VersionReader) (steps : List Step) :
    ∀ (w : World) (m : SchemaMap) (v : Json), w.pluginSchemasCache = some m →
      w.kongVersionCache = some v → v.truthy = true →
      (runSteps parseVersion steps w).pluginSchemasCache = some m ∧
      (runSteps parseVersion steps w).kongVersionCache = some v := by
  induction steps with
  | nil => intro w m v hm hv _; exact ⟨hm, hv⟩
  | cons s rest ih =>
    intro w m v hm hv ht
    have h := step_keeps_permanent_caches parseVersion s w m v hm hv ht
    exact ih _ m v h.1 h.2 ht

/-! ## Claims about the permanent caches -/

/-- C16, as stated, fails in two ways.  A population that was in flight when
the caches became populated overwrites the plugin schema cache when its
callback (`adminApi.js:40`) runs: the cache held the map with identity 2 and
holds the map with identity 4 afterwards.  And a version cache that holds a
falsy value does not pass the guard `if (kongVersionCache)`: from
`blankVersionWorld`, `fetchKongVersion` fetches the root document again and
replaces the cached value. -/
theorem permanent_caches_overwritten :
    inFlightStarted.2.pluginSchemasCache = none ∧
    inFlightPopulated.pluginSchemasCache
      = some { id := 2, entries := [(.str "key-auth", some (.obj [("key_names", .obj [])]))] } ∧
    inFlightPopulated.kongVersionCache = some (.str "0.14.1") ∧
    inFlightCompleted.2.pluginSchemasCache
      = some { id := 4, entries := [(.str "key-auth", some (.obj [("key_names", .obj [])]))] } ∧
    inFlightCompleted.2.pluginSchemasCache ≠ inFlightPopulated.pluginSchemasCache ∧
    blankVersionWorld.kongVersionCache = some (.str "") ∧
    (fetchKongVersion demoParseVersion demoConfig fullServer 3 blankVersionWorld).2.calls
      = [(.str "/", none)] ∧
    (fetchKongVersion demoParseVersion demoConfig fullServer 3
        blankVersionWorld).2.kongVersionCache
      = some (.str "0.14.1") := by
  have h1 : inFlightPopulated.pluginSchemasCache
      = some { id := 2, entries := [(.str "key-auth", some (.obj [("key_names", .obj [])]))] } :=
    rfl
  have h2 : inFlightCompleted.2.pluginSchemasCache
      = some { id := 4, entries := [(.str "key-auth", some (.obj [("key_names", .obj [])]))] } :=
    rfl
  refine ⟨rfl, h1, rfl, h2, ?_, rfl, rfl, rfl⟩
  rw [h1, h2]
  intro h
  simp at h

/-- C16, amended: the permanent caches are never invalidated by calls made
once they are populated.  From every state in which the plugin schema cache
holds a mapping and the version cache holds a truthy version, `requestEndpoint`
and every read operation, called in that state and run to its end before the
next call is made, leave both caches as they were, so after any sequence of
such mutations and reads `fetchPluginSchemas` and `fetchKongVersion` still
resolve to the cached values and leave the module, its transport log
included, untouched. -/
theorem permanent_caches_never_invalidated (parseVersion : VersionReader) (steps : List Step)
    (w : World) (m : SchemaMap) (v : Json)
    (hm : w.pluginSchemasCache = some m) (hv : w.kongVersionCache = some v)
    (ht : v.truthy = true) :
    (∀ s : Step, (s.run parseVersion w).pluginSchemasCache = some m ∧
      (s.run parseVersion w).kongVersionCache = some v) ∧
    (runSteps parseVersion steps w).pluginSchemasCache = some m ∧
    (runSteps parseVersion steps w).kongVersionCache = some v ∧
    ∀ (cfg : Config) (get : Transport) (fuel : Nat),
      fetchPluginSchemas cfg get fuel (runSteps parseVersion steps w)
        = (.resolved m, runSteps parseVersion steps w) ∧
      fetchKongVersion parseVersion cfg get fuel (runSteps parseVersion steps w)
        = (.resolved (some v), runSteps parseVersion steps w) := by
  have h := runSteps_keeps_permanent_caches parseVersion steps w m v hm hv ht
  exact ⟨fun s => step_keeps_permanent_caches parseVersion s w m v hm hv ht, h.1, h.2,
    fun cfg get fuel =>
      ⟨fetchPluginSchemas_hit cfg get fuel _ m h.1,
        fetchKongVersion_hit parseVersion cfg get fuel _ v h.2 ht⟩⟩

/-- From `populatedWorld`, after a `DELETE` and a read of the APIs, both
permanent caches hold what they held, and `fetchKongVersion` resolves to the
cached version although the server cannot be reached. -/
theorem permanent_caches_never_invalidated_witness :
    populatedWorld.pluginSchemasCache = some { id := 0, entries := [] } ∧
    populatedWorld.kongVersionCache = some (.str "0.14.1") ∧
    (Json.str "0.14.1").truthy = true ∧
    (runSteps demoParseVersion demoSteps populatedWorld).resultsCache.length = 1 ∧
    (fetchKongVersion demoParseVersion demoConfig unreachable 3
        (runSteps demoParseVersion demoSteps populatedWorld)).1
      = .resolved (some (.str "0.14.1")) :=
  ⟨rfl, rfl, by decide, rfl, by
    rw [((permanent_caches_never_invalidated demoParseVersion demoSteps populatedWorld
      { id := 0, entries := [] } (.str "0.14.1") rfl rfl (by decide)).2.2.2
        demoConfig unreachable 3).2]⟩


/-! ## Request cache and read operations: results -/

theorem read_keeps_entry (cfg : Config) (get : Transport) (fuel : Nat) (uri other : String)
    (pageSize : Option Int) (w : World) (p : Promise Json)
    (h : w.resultsCache.lookup uri = some p) :
    (cfg.getPaginatedJson get fuel other pageSize w).2.resultsCache.lookup uri = some p := by
  cases hc : cfg.cache with
  | true =>
    rw [config_getPaginatedJson_cached cfg hc]
    exact cache_keeps get fuel uri other pageSize w p h
  | false =>
    rw [config_getPaginatedJson_uncached cfg hc]
    exact h

theorem fetchSchemaPairs_resultsCache (cfg : Config) (get : Transport) (fuel : Nat)
    (w : World) :
    (fetchSchemaPairs cfg get fuel w).2.resultsCache
      = (cfg.getPaginatedJson get fuel
          (cfg.router { name := "plugins-enabled", params := [] }) cfg.pageSize w).2.resultsCache
      := by
  simp only [fetchSchemaPairs]
  repeat' split
  all_goals rfl

theorem storeSchemas_resultsCache (all : Settled (List (Json × Option Json))) (w : World) :
    (storeSchemas all w).2.resultsCache = w.resultsCache := by
  cases all <;> rfl

theorem storeVersion_resultsCache (parseVersion : VersionReader) (root : Settled Json)
    (w : World) : (storeVersion parseVersion root w).2.resultsCache = w.resultsCache := by
  unfold storeVersion
  repeat' split
  all_goals rfl

theorem fetchPluginSchemas_keeps_entry (cfg : Config) (get : Transport) (fuel : Nat)
    (uri : String) (w : World) (p : Promise Json)
    (h : w.resultsCache.lookup uri = some p) :
    (fetchPluginSchemas cfg get fuel w).2.resultsCache.lookup uri = some p := by
  cases hc : w.pluginSchemasCache with
  | some m => rw [fetchPluginSchemas_hit cfg get fuel w m hc]; exact h
  | none =>
    rw [fetchPluginSchemas_miss cfg get fuel w hc, storeSchemas_resultsCache,
      fetchSchemaPairs_resultsCache]
    exact read_keeps_entry cfg get fuel uri _ _ w p h

theorem fetchKongVersion_keeps_entry (parseVersion : VersionReader) (cfg : Config)
    (get : Transport) (fuel : Nat) (uri : String) (w : World) (p : Promise Json)
    (h : w.resultsCache.lookup uri = some p) :
    (fetchKongVersion parseVersion cfg get fuel w).2.resultsCache.lookup uri = some p := by
  unfold fetchKongVersion
  split
  · exact h
  · rw [storeVersion_resultsCache]
    exact read_keeps_entry cfg get fuel uri _ _ w p h

theorem fetchConsumers_keeps_entry (cfg : Config) (get : Transport) (fuel : Nat)
    (uri : String) (w : World) (p : Promise Json)
    (h : w.resultsCache.lookup uri = some p) :
    (fetchConsumers cfg get fuel w).2.resultsCache.lookup uri = some p := by
  unfold fetchConsumers
  split
  · exact h
  · exact read_keeps_entry cfg get fuel uri _ _ w p h

theorem step_keeps_entry (parseVersion : VersionReader) (s : Step) (uri : String) (w : World)
    (p : Promise Json) (hread : s.operation.isMutation = false)
    (h : w.resultsCache.lookup uri = some p) :
    (s.run parseVersion w).resultsCache.lookup uri = some p := by
  obtain ⟨cfg, get, request, fuel, operation⟩ := s
  cases operation with
  | fetchApis => exact read_keeps_entry cfg get fuel uri _ _ w p h
  | fetchGlobalPlugins => exact read_keeps_entry cfg get fuel uri _ _ w p h
  | fetchPlugins apiId => exact read_keeps_entry cfg get fuel uri _ _ w p h
  | fetchConsumers => exact fetchConsumers_keeps_entry cfg get fuel uri w p h
  | fetchConsumerCredentials consumerId plugin =>
    exact read_keeps_entry cfg get fuel uri _ _ w p h
  | fetchConsumerAcls consumerId => exact read_keeps_entry cfg get fuel uri _ _ w p h
  | fetchUpstreams => exact read_keeps_entry cfg get fuel uri _ _ w p h
  | fetchTargets upstreamId => exact read_keeps_entry cfg get fuel uri _ _ w p h
  | fetchPluginSchemas => exact fetchPluginSchemas_keeps_entry cfg get fuel uri w p h
  | fetchKongVersion => exact fetchKongVersion_keeps_entry parseVersion cfg get fuel uri w p h
  | requestEndpoint endpoint params => simp [Operation.isMutation] at hread

theorem runSteps_keeps_entry (parseVersion : VersionReader) (steps : List Step) :
    ∀ (w : World) (uri : String) (p : Promise Json),
      (∀ s ∈ steps, s.operation.isMutation = false) →
      w.resultsCache.lookup uri = some p →
      (runSteps parseVersion steps w).resultsCache.lookup uri = some p := by
  induction steps with
  | nil => intro w uri p _ h; exact h
  | cons s rest ih =>
    intro w uri p hreads h
    exact ih _ uri p (fun s' hs' => hreads s' (List.mem_cons_of_mem _ hs'))
      (step_keeps_entry parseVersion s uri w p (hreads s (List.mem_cons_self _ _)) h)

/-! ## Claims about the request cache and read operations -/

/-- C6, as stated, fails for targets that are read through the uncached
walker.  With caching enabled, `fetchPluginSchemas` called twice on
`brokenSchemaServer` fetches the schema targets of both plugins again on the
second call (`adminApi.js:78`), only the enabled-plugins read being served by
the cache; and after a cached read of `/p2`, a cached read of `/p1` fetches
`/p2` again as its continuation page (`adminApi.js:104`). -/
theorem read_operations_refetch_uncached_targets :
    cachingConfig.cache = true ∧
    (fetchPluginSchemas cachingConfig brokenSchemaServer 3 World.initial).2.calls
      = [(.str "/plugins/enabled", none), (.str "/plugins/schema/key-auth", none),
         (.str "/plugins/schema/acl", none)] ∧
    (fetchPluginSchemas cachingConfig brokenSchemaServer 3
        (fetchPluginSchemas cachingConfig brokenSchemaServer 3 World.initial).2).2.calls
      = [(.str "/plugins/enabled", none), (.str "/plugins/schema/key-auth", none),
         (.str "/plugins/schema/acl", none), (.str "/plugins/schema/key-auth", none),
         (.str "/plugins/schema/acl", none)] ∧
    (getPaginatedJsonCache shortFirstPage 3 "/p2" none World.initial).2.calls
      = [(.str "/p2", none)] ∧
    (getPaginatedJsonCache shortFirstPage 3 "/p1" (some 2)
        (getPaginatedJsonCache shortFirstPage 3 "/p2" none World.initial).2).2.calls
      = [(.str "/p2", none), (.str "/p1", some 2), (.str "/p2", none)] :=
  ⟨rfl, rfl, rfl, rfl, rfl⟩

/-- C6, amended: with caching enabled, for every request target and every
sequence of read operations containing no `requestEndpoint` call, the cached
walker (`getPaginatedJsonCache`, through which every operation makes its first
request, the per-plugin schema fetches excepted) starts the page walker for
that target only on the first read: every later read of the same target
through the cached walker returns the very promise stored by the first read
(pending, resolved or rejected) and leaves the module as it was, so that it
issues no transport call. -/
theorem cached_walker_reuses_first_read (parseVersion : VersionReader)
    (first later : Config) (firstGet laterGet : Transport) (firstFuel laterFuel : Nat)
    (uri : String) (firstPageSize laterPageSize : Option Int) (between : List Step)
    (w : World)
    (hfirst : first.cache = true) (hlater : later.cache = true)
    (hreads : ∀ s ∈ between, s.operation.isMutation = false) :
    later.getPaginatedJson laterGet laterFuel uri laterPageSize
        (runSteps parseVersion between
          (first.getPaginatedJson firstGet firstFuel uri firstPageSize w).2)
      = ((first.getPaginatedJson firstGet firstFuel uri firstPageSize w).1,
          runSteps parseVersion between
            (first.getPaginatedJson firstGet firstFuel uri firstPageSize w).2) := by
  rw [config_getPaginatedJson_cached first hfirst, config_getPaginatedJson_cached later hlater]
  exact cache_hit _ _ _ _ _ _
    (runSteps_keeps_entry parseVersion between _ uri _ hreads
      (cache_stores firstGet firstFuel uri firstPageSize w))

/-- After a cached read of `/p1` with page size 3 and the reads of
`demoReads`, a cached read of `/p1` with another page size against a server
that cannot be reached returns the stored promise, resolved with `[1,2]`, and
records no transport call beyond those of the reads in between. -/
theorem cached_walker_reuses_first_read_witness :
    cachingConfig.cache = true ∧
    (∀ s ∈ demoReads, s.operation.isMutation = false) ∧
    (cachingConfig.getPaginatedJson unreachable 3 "/p1" (some 2)
        (runSteps demoParseVersion demoReads
          (cachingConfig.getPaginatedJson shortFirstPage 3 "/p1" (some 3)
            World.initial).2)).1
      = { id := 0, settled := .resolved (.arr [.num 1, .num 2]) } ∧
    (cachingConfig.getPaginatedJson unreachable 3 "/p1" (some 2)
        (runSteps demoParseVersion demoReads
          (cachingConfig.getPaginatedJson shortFirstPage 3 "/p1" (some 3)
            World.initial).2)).2
      = runSteps demoParseVersion demoReads
          (cachingConfig.getPaginatedJson shortFirstPage 3 "/p1" (some 3) World.initial).2 :=
  have hreads : ∀ s ∈ demoReads, s.operation.isMutation = false := by
    intro s hs
    simp only [demoReads, List.mem_cons, List.mem_singleton, List.not_mem_nil, or_false] at hs
    rcases hs with rfl | rfl | rfl <;> rfl
  have h := cached_walker_reuses_first_read demoParseVersion cachingConfig cachingConfig
    shortFirstPage unreachable 3 3 "/p1" (some 3) (some 2) demoReads World.initial rfl rfl
    hreads
  ⟨rfl, hreads, by rw [h]; rfl, by rw [h]⟩


end Kongfig
